import Mathlib

/-!
Verification of the mealplan-agent pipeline code (src/agent/*.py).

The Python sources are shallowly embedded: JSON values (the data passed
around by every agent) become the inductive type `Json`; Python dicts are
association lists whose insertion order is preserved (as CPython does);
raised exceptions become `Except PyErr`; the generative backend is an
explicit parameter (`Backend`), since its behaviour is external to the
repository.  Each embedded definition is annotated with the source file
and lines it translates.
-/

/-- Python exception classes that the embedded code can raise.  `valueError`
carries the message because the validators' messages are part of the
behaviour under scrutiny. -/
inductive PyErr where
  | typeError
  | attributeError
  | keyError
  | valueError (msg : String)
  | jsonDecodeError
deriving DecidableEq, Repr

/-- JSON values, the universe of data handled by all agents.  Numbers are
modelled as rationals (covering both Python ints and the decimal literals
appearing in the sources). -/
inductive Json where
  | null
  | bool (b : Bool)
  | num (q : ℚ)
  | str (s : String)
  | arr (elems : List Json)
  | obj (fields : List (String × Json))
deriving Repr

mutual

/-- Decidable equality for `Json` (the derive handler does not support the
nested occurrence under `List`). -/
def Json.decEq : (a b : Json) → Decidable (a = b)
  | .null, .null => .isTrue rfl
  | .bool a, .bool b =>
      if h : a = b then .isTrue (by rw [h])
      else .isFalse (fun hh => h (Json.bool.inj hh))
  | .num a, .num b =>
      if h : a = b then .isTrue (by rw [h])
      else .isFalse (fun hh => h (Json.num.inj hh))
  | .str a, .str b =>
      if h : a = b then .isTrue (by rw [h])
      else .isFalse (fun hh => h (Json.str.inj hh))
  | .arr xs, .arr ys =>
      match Json.decEqList xs ys with
      | .isTrue h => .isTrue (by rw [h])
      | .isFalse h => .isFalse (fun hh => h (Json.arr.inj hh))
  | .obj xs, .obj ys =>
      match Json.decEqObj xs ys with
      | .isTrue h => .isTrue (by rw [h])
      | .isFalse h => .isFalse (fun hh => h (Json.obj.inj hh))
  | .null, .bool _ => .isFalse (fun h => nomatch h)
  | .null, .num _ => .isFalse (fun h => nomatch h)
  | .null, .str _ => .isFalse (fun h => nomatch h)
  | .null, .arr _ => .isFalse (fun h => nomatch h)
  | .null, .obj _ => .isFalse (fun h => nomatch h)
  | .bool _, .null => .isFalse (fun h => nomatch h)
  | .bool _, .num _ => .isFalse (fun h => nomatch h)
  | .bool _, .str _ => .isFalse (fun h => nomatch h)
  | .bool _, .arr _ => .isFalse (fun h => nomatch h)
  | .bool _, .obj _ => .isFalse (fun h => nomatch h)
  | .num _, .null => .isFalse (fun h => nomatch h)
  | .num _, .bool _ => .isFalse (fun h => nomatch h)
  | .num _, .str _ => .isFalse (fun h => nomatch h)
  | .num _, .arr _ => .isFalse (fun h => nomatch h)
  | .num _, .obj _ => .isFalse (fun h => nomatch h)
  | .str _, .null => .isFalse (fun h => nomatch h)
  | .str _, .bool _ => .isFalse (fun h => nomatch h)
  | .str _, .num _ => .isFalse (fun h => nomatch h)
  | .str _, .arr _ => .isFalse (fun h => nomatch h)
  | .str _, .obj _ => .isFalse (fun h => nomatch h)
  | .arr _, .null => .isFalse (fun h => nomatch h)
  | .arr _, .bool _ => .isFalse (fun h => nomatch h)
  | .arr _, .num _ => .isFalse (fun h => nomatch h)
  | .arr _, .str _ => .isFalse (fun h => nomatch h)
  | .arr _, .obj _ => .isFalse (fun h => nomatch h)
  | .obj _, .null => .isFalse (fun h => nomatch h)
  | .obj _, .bool _ => .isFalse (fun h => nomatch h)
  | .obj _, .num _ => .isFalse (fun h => nomatch h)
  | .obj _, .str _ => .isFalse (fun h => nomatch h)
  | .obj _, .arr _ => .isFalse (fun h => nomatch h)

/-- Decidable equality on lists of `Json`. -/
def Json.decEqList : (xs ys : List Json) → Decidable (xs = ys)
  | [], [] => .isTrue rfl
  | [], _ :: _ => .isFalse (fun h => nomatch h)
  | _ :: _, [] => .isFalse (fun h => nomatch h)
  | x :: xs, y :: ys =>
      match Json.decEq x y with
      | .isTrue h1 =>
          (match Json.decEqList xs ys with
           | .isTrue h2 => .isTrue (by rw [h1, h2])
           | .isFalse h2 => .isFalse (fun h => h2 (List.cons.inj h).2))
      | .isFalse h1 => .isFalse (fun h => h1 (List.cons.inj h).1)

/-- Decidable equality on `Json` object field lists. -/
def Json.decEqObj : (xs ys : List (String × Json)) → Decidable (xs = ys)
  | [], [] => .isTrue rfl
  | [], _ :: _ => .isFalse (fun h => nomatch h)
  | _ :: _, [] => .isFalse (fun h => nomatch h)
  | (k1, v1) :: xs, (k2, v2) :: ys =>
      if hk : k1 = k2 then
        match Json.decEq v1 v2 with
        | .isTrue hv =>
            (match Json.decEqObj xs ys with
             | .isTrue h2 => .isTrue (by rw [hk, hv, h2])
             | .isFalse h2 => .isFalse (fun h => h2 (List.cons.inj h).2))
        | .isFalse hv =>
            .isFalse (fun h => hv (congrArg Prod.snd (List.cons.inj h).1))
      else .isFalse (fun h => hk (congrArg Prod.fst (List.cons.inj h).1))

end

instance : DecidableEq Json := Json.decEq

/-- Decidable equality for pipeline outcomes (needed so the concrete
counterexamples can be settled by `decide`). -/
instance : DecidableEq (Except PyErr Json) := fun a b =>
  match a, b with
  | .ok x, .ok y =>
      if h : x = y then .isTrue (by rw [h])
      else .isFalse (fun hh => h (Except.ok.inj hh))
  | .error x, .error y =>
      if h : x = y then .isTrue (by rw [h])
      else .isFalse (fun hh => h (Except.error.inj hh))
  | .ok _, .error _ => .isFalse (fun h => nomatch h)
  | .error _, .ok _ => .isFalse (fun h => nomatch h)

/-! ### Character-level string helpers

Python string operations are modelled by structural recursion over the
character list, so that every definition evaluates inside the kernel
(`decide`/`rfl`) on concrete inputs. -/

namespace PyStr

/-- The whitespace characters removed by Python's `str.strip()`. -/
def isWsChar (c : Char) : Bool :=
  c = ' ' || c = '\t' || c = '\n' || c = '\r' || c = '\x0b' || c = '\x0c'

/-- Drop leading whitespace. -/
def dropLeadWs : List Char → List Char
  | [] => []
  | c :: cs => if isWsChar c then dropLeadWs cs else c :: cs

/-- Python `s.strip()`. -/
def strip (s : String) : String :=
  ⟨(dropLeadWs (dropLeadWs s.data).reverse).reverse⟩

/-- Auxiliary for `splitCh`. -/
def splitChAux (sep : Char) : List Char → List Char → List String
  | acc, [] => [⟨acc.reverse⟩]
  | acc, c :: cs =>
      if c = sep then ⟨acc.reverse⟩ :: splitChAux sep [] cs
      else splitChAux sep (c :: acc) cs

/-- Python `s.split(sep)` for a one-character separator
(e.g. `"a\n" → ["a", ""]`). -/
def splitCh (sep : Char) (s : String) : List String :=
  splitChAux sep [] s.data

/-- Python `sep.join(parts)` for a one-character separator. -/
def joinCh (sep : Char) : List String → String
  | [] => ""
  | [s] => s
  | s :: rest => s ++ ⟨[sep]⟩ ++ joinCh sep rest

/-- Python `s.startswith(p)`. -/
def startsWith (p s : String) : Bool :=
  p.data.isPrefixOf s.data

/-- Substring occurrence on character lists. -/
def containsSubL (nd : List Char) : List Char → Bool
  | [] => nd.isEmpty
  | c :: cs => nd.isPrefixOf (c :: cs) || containsSubL nd cs

/-- Python substring test `nd in s`. -/
def containsSub (nd s : String) : Bool :=
  containsSubL nd.data s.data

/-- Python `s[n:]` (character-based slicing). -/
def dropStr (n : ℕ) (s : String) : String :=
  ⟨s.data.drop n⟩

/-- Python `s.lower()` (ASCII case folding). -/
def toLower (s : String) : String :=
  ⟨s.data.map Char.toLower⟩

/-- Auxiliary digit accumulator for `natOf?`. -/
def natOfAux : ℕ → List Char → Option ℕ
  | acc, [] => some acc
  | acc, c :: cs =>
      if c.isDigit then natOfAux (acc * 10 + (c.toNat - 48)) cs else none

/-- Parse a nonempty all-digit string as a natural number. -/
def natOf? (s : String) : Option ℕ :=
  if s.data.isEmpty then none else natOfAux 0 s.data

end PyStr

/-- Outcome of one call to the generative backend (`model.generate_content`
/ `agent.run`): either the call raises, or it returns a text. -/
inductive Backend where
  | raised (msg : String)
  | returned (text : String)
deriving DecidableEq, Repr

/-- A Python dict: ordered association list, keys unique. -/
abbrev JObj := List (String × Json)

namespace Json

/-- Dict lookup (first binding; our objects keep keys unique). -/
def jget (fields : JObj) (k : String) : Option Json :=
  (fields.find? (fun p => p.1 = k)).map (fun p => p.2)

/-- Python `d.get(k, default)` on a dict. -/
def pyGetD (fields : JObj) (k : String) (d : Json) : Json :=
  (jget fields k).getD d

/-- Dict assignment `d[k] = v`: replace an existing binding in place,
otherwise append (CPython insertion-order semantics). -/
def setKey (fields : JObj) (k : String) (v : Json) : JObj :=
  match fields with
  | [] => [(k, v)]
  | (k', v') :: rest =>
      if k' = k then (k, v) :: rest else (k', v') :: setKey rest k v

/-- Python truthiness of a JSON value. -/
def truthy : Json → Bool
  | .null => false
  | .bool b => b
  | .num q => q ≠ 0
  | .str s => s ≠ ""
  | .arr l => !l.isEmpty
  | .obj l => !l.isEmpty

/-- Python `x.get(k, default)` on an arbitrary value: only dicts have
`.get`; anything else raises `AttributeError`. -/
def pyGetAttr (v : Json) (k : String) (d : Json) : Except PyErr Json :=
  match v with
  | .obj f => .ok (pyGetD f k d)
  | _ => .error .attributeError

/-- Values Python can hash (set members / `in`-set probes): scalars only;
lists and dicts raise `TypeError`. -/
def hashable : Json → Bool
  | .arr _ => false
  | .obj _ => false
  | _ => true

/-- Whether `', '.join(v)` succeeds: any iterable yielding strings, i.e. a
string (its characters), a list of strings, or a dict (its keys). -/
def joinable : Json → Bool
  | .str _ => true
  | .arr l => l.all (fun j => match j with | .str _ => true | _ => false)
  | .obj _ => true
  | _ => false

/-- Whether `v * 100` succeeds in Python (sequence repetition makes str,
list and bool all succeed; only None and dict raise `TypeError`). -/
def intMulOk : Json → Bool
  | .null => false
  | .obj _ => false
  | _ => true

/-- Python `k in v` for a string key: dict key lookup, list membership by
equality, substring test on a string; `in` on a number or None raises
`TypeError`. -/
def keyIn (k : String) (v : Json) : Except PyErr Bool :=
  match v with
  | .obj f => .ok (jget f k).isSome
  | .arr l => .ok (l.contains (.str k))
  | .str s => .ok (PyStr.containsSub k s)
  | _ => .error .typeError

/-- Python `v[k] = x` for a string key: only dicts accept it. -/
def setItem (v : Json) (k : String) (x : Json) : Except PyErr Json :=
  match v with
  | .obj f => .ok (.obj (setKey f k x))
  | _ => .error .typeError

/-- Python subscript `v[k]` with a string key. -/
def subscript (v : Json) (k : String) : Except PyErr Json :=
  match v with
  | .obj f => match jget f k with
      | some x => .ok x
      | none => .error .keyError
  | _ => .error .typeError

/-- Numeric view used by comparisons (Python treats bools as 0/1). -/
def asNum : Json → Option ℚ
  | .num q => some q
  | .bool b => some (if b then 1 else 0)
  | _ => none

/-- Python `a > b`: numbers compare numerically (bool coerces), strings
lexicographically; mixed or non-ordered types raise `TypeError`. -/
def pyGt (a b : Json) : Except PyErr Bool :=
  match asNum a, asNum b with
  | some x, some y => .ok (y < x)
  | _, _ =>
      match a, b with
      | .str s, .str t => .ok (t < s)
      | _, _ => .error .typeError

end Json

/-! ### Modelling `json.loads`

A recursive-descent parser over the character list, driven by a fuel
counter for termination.  It covers the JSON fragment the agents exchange
(objects, arrays, strings without escape sequences beyond `\"` and `\\`,
numbers without exponents, booleans, null).  The universal theorems below
do not depend on where the parser succeeds; the concrete inputs used in
counterexamples and witnesses stay inside this fragment, where the parser
agrees with Python's `json.loads`. -/

namespace PyJson

def isWs (c : Char) : Bool :=
  c = ' ' || c = '\n' || c = '\t' || c = '\r'

def skipWs : List Char → List Char
  | [] => []
  | c :: cs => if isWs c then skipWs cs else c :: cs

/-- Parse the body of a string literal after the opening quote. -/
def strBody : List Char → Option (String × List Char)
  | [] => none
  | '"' :: rest => some ("", rest)
  | '\\' :: e :: rest =>
      match e with
      | '"' => (strBody rest).map (fun r => (⟨'"' :: r.1.data⟩, r.2))
      | '\\' => (strBody rest).map (fun r => (⟨'\\' :: r.1.data⟩, r.2))
      | 'n' => (strBody rest).map (fun r => (⟨'\n' :: r.1.data⟩, r.2))
      | _ => none
  | c :: rest => (strBody rest).map (fun r => (⟨c :: r.1.data⟩, r.2))

def digitsToNat (acc : ℕ) : List Char → ℕ × List Char
  | c :: cs =>
      if c.isDigit then digitsToNat (acc * 10 + (c.toNat - '0'.toNat)) cs
      else (acc, c :: cs)
  | [] => (acc, [])

def countDigits : List Char → ℕ
  | c :: cs => if c.isDigit then countDigits cs + 1 else 0
  | [] => 0

def dropDigits : List Char → List Char
  | c :: cs => if c.isDigit then dropDigits cs else c :: cs
  | [] => []

/-- Parse a JSON number (optional sign, integer part, optional fraction;
no exponents). -/
def numBody (cs : List Char) : Option (ℚ × List Char) :=
  let (neg, cs1) := match cs with
    | '-' :: rest => (true, rest)
    | _ => (false, cs)
  match cs1 with
  | c :: _ =>
      if c.isDigit then
        let (ip, cs2) := digitsToNat 0 cs1
        match cs2 with
        | '.' :: cs3 =>
            match cs3 with
            | d :: _ =>
                if d.isDigit then
                  let k := countDigits cs3
                  let (fp, _) := digitsToNat 0 cs3
                  let q : ℚ := (ip : ℚ) + (fp : ℚ) / ((10 : ℚ) ^ k)
                  some (if neg then -q else q, dropDigits cs3)
                else none
            | [] => none
        | _ => some (if neg then -(ip : ℚ) else (ip : ℚ), cs2)
      else none
  | [] => none

mutual

def value (fuel : ℕ) (cs : List Char) : Option (Json × List Char) :=
  match fuel with
  | 0 => none
  | fuel + 1 =>
      match skipWs cs with
      | 'n' :: 'u' :: 'l' :: 'l' :: rest => some (.null, rest)
      | 't' :: 'r' :: 'u' :: 'e' :: rest => some (.bool true, rest)
      | 'f' :: 'a' :: 'l' :: 's' :: 'e' :: rest => some (.bool false, rest)
      | '"' :: rest => (strBody rest).map (fun r => (.str r.1, r.2))
      | '[' :: rest =>
          (match skipWs rest with
           | ']' :: rest2 => some (.arr [], rest2)
           | other => (arrElems fuel other).map (fun r => (.arr r.1, r.2)))
      | '{' :: rest =>
          (match skipWs rest with
           | '}' :: rest2 => some (.obj [], rest2)
           | other => (objFields fuel other).map (fun r => (.obj r.1, r.2)))
      | other => numBody other |>.map (fun r => (.num r.1, r.2))

def arrElems (fuel : ℕ) (cs : List Char) : Option (List Json × List Char) :=
  match fuel with
  | 0 => none
  | fuel + 1 =>
      match value fuel cs with
      | none => none
      | some (v, rest) =>
          match skipWs rest with
          | ',' :: rest2 =>
              (arrElems fuel rest2).map (fun r => (v :: r.1, r.2))
          | ']' :: rest2 => some ([v], rest2)
          | _ => none

def objFields (fuel : ℕ) (cs : List Char) : Option (JObj × List Char) :=
  match fuel with
  | 0 => none
  | fuel + 1 =>
      match skipWs cs with
      | '"' :: rest =>
          match strBody rest with
          | none => none
          | some (k, rest2) =>
              match skipWs rest2 with
              | ':' :: rest3 =>
                  match value fuel rest3 with
                  | none => none
                  | some (v, rest4) =>
                      match skipWs rest4 with
                      | ',' :: rest5 =>
                          (objFields fuel rest5).map
                            (fun r =>
                              (match Json.jget r.1 k with
                               | some w => (k, w) :: r.1.eraseP (fun p => p.1 = k)
                               | none => (k, v) :: r.1, r.2))
                      | '}' :: rest5 => some ([(k, v)], rest5)
                      | _ => none
              | _ => none
      | _ => none

end

/-- Model of Python's `json.loads`: parse the whole text, requiring only
trailing whitespace after the value. -/
def loads (s : String) : Option Json :=
  match value (s.data.length + 1) s.data with
  | some (v, rest) => if skipWs rest = [] then some v else none
  | none => none

end PyJson

/-! ### Response sanitization (markdown fence stripping)

Two distinct implementations exist in the sources. -/

/-- Model of Python's `str.strip()` (whitespace at both ends). -/
def pyStrip (s : String) : String := PyStr.strip s

/-- Fence stripper of `balanced_diet_agent.py` lines 181-188,
`waste_reduction_agent.py` lines 145-152 (and
`recipe_generator_with_search.py` lines 150-155): drop the first line,
then drop the last line only if it is a bare closing fence.  Applied to
the already-stripped response text. -/
def stripMdBalanced (t : String) : String :=
  if PyStr.startsWith "```" t then
    let lines := (PyStr.splitCh '\n' t).drop 1
    let lines :=
      match lines.getLast? with
      | some last => if pyStrip last = "```" then lines.dropLast else lines
      | none => lines
    PyStr.joinCh '\n' lines
  else t

/-- Fence stripper of `meal_planner.py` lines 95-99 (identically
`recipe_generator.py` lines 88-92, `feedback_compactor.py` lines 78-81):
when the text starts with a fence and has more than two lines, drop the
first AND last lines unconditionally, then strip a leading `json` tag. -/
def stripMdPlanner (t0 : String) : String :=
  let t := pyStrip t0
  if PyStr.startsWith "```" t then
    let lines := PyStr.splitCh '\n' t
    let t1 := if lines.length > 2
      then PyStr.joinCh '\n' ((lines.drop 1).dropLast)
      else t
    if PyStr.startsWith "json" t1 then pyStrip (PyStr.dropStr 4 t1) else t1
  else t

/-! ### Balanced diet agent — `src/agent/balanced_diet_agent.py` -/

/-- The source's literal `0.25`, as a kernel-normal rational (writing it
as `1/4` would go through `Rat` normalization, which the kernel cannot
evaluate). -/
def ratQuarter : ℚ := ⟨1, 4, by decide, Nat.coprime_one_left 4⟩

/-- The source's literal `0.50`, kernel-normal. -/
def ratHalf : ℚ := ⟨1, 2, by decide, Nat.coprime_one_left 2⟩

/-- Rendering of `str(e)` for the exception values we model.  The claims
only rely on the message being propagated into the fallback's `error`
field, not on its exact wording. -/
def PyErr.message : PyErr → String
  | .typeError => "TypeError"
  | .attributeError => "AttributeError"
  | .keyError => "KeyError"
  | .valueError m => m
  | .jsonDecodeError => "Expecting value"

/-- Python list slice `xs[-4:]` / string slice iterated element-wise
(`history[-4:]` at line 221): lists slice to their last four elements,
strings to their last four characters (iterating a string yields one-char
strings); any other value raises `TypeError`. -/
def histSlice : Json → Except PyErr (List Json)
  | .arr l => .ok (l.drop (l.length - 4))
  | .str s => .ok ((s.data.drop (s.length - 4)).map (fun c => .str ⟨[c]⟩))
  | _ => .error .typeError

/-- Python `recent_ids.update(v)` (line 222): extend the set with the
elements of an iterable; list elements must be hashable, strings yield
their characters, dicts their keys; other values raise `TypeError`. -/
def setUpdate (acc : List Json) (v : Json) : Except PyErr (List Json) :=
  match v with
  | .arr l => if l.all Json.hashable then .ok (acc ++ l) else .error .typeError
  | .str s => .ok (acc ++ s.data.map (fun c => .str ⟨[c]⟩))
  | .obj f => .ok (acc ++ f.map (fun p => Json.str p.1))
  | _ => .error .typeError

/-- Lines 220-222: collect recently used recipe ids from the last four
history entries (`week.get('recipes', [])` requires each entry to be a
dict). -/
def recentIdsOf (acc : List Json) : List Json → Except PyErr (List Json)
  | [] => .ok acc
  | w :: ws => do
      let r ← Json.pyGetAttr w "recipes" (.arr [])
      let acc' ← setUpdate acc r
      recentIdsOf acc' ws

/-- Python `for x in v`: iterate a list's elements, a string's characters,
a dict's keys; other values raise `TypeError`. -/
def pyIterate : Json → Except PyErr (List Json)
  | .arr l => .ok l
  | .str s => .ok (s.data.map (fun c => .str ⟨[c]⟩))
  | .obj f => .ok (f.map (fun p => Json.str p.1))
  | _ => .error .typeError

/-- Lines 225-237: flag every meal whose recipe id is in `recent_ids`,
keeping iteration order.  The membership probe hashes the id, so an
unhashable id raises `TypeError`. -/
def replacementsOf (recent : List Json) : List Json → Except PyErr (List Json)
  | [] => .ok []
  | meal :: rest => do
      let recipe ← Json.pyGetAttr meal "recipe" (.obj [])
      let rid ← Json.pyGetAttr recipe "id" .null
      if ¬ Json.hashable rid then throw .typeError
      if recent.contains rid then
        let day ← Json.pyGetAttr meal "day" .null
        let mealType ← Json.pyGetAttr meal "mealType" .null
        let title ← Json.pyGetAttr recipe "title" .null
        let tail ← replacementsOf recent rest
        pure (Json.obj [
          ("day", day),
          ("mealType", mealType),
          ("originalRecipeId", rid),
          ("originalRecipeTitle", title),
          ("newRecipeId", .str "replacement_needed"),
          ("newRecipeTitle", .str "Please select alternative"),
          ("reason", .str "Recipe used in past 4 weeks")] :: tail)
      else replacementsOf recent rest

/-- `create_fallback_response` (lines 214-258).  The result is `Except`
because the function itself raises on ill-typed `history`/`weeklyPlan`
values (e.g. a numeric `history` makes `history[-4:]` raise). -/
def create_fallback_response (input : JObj) (errorMsg : String) :
    Except PyErr Json := do
  let weekly_plan := Json.pyGetD input "weeklyPlan" (.arr [])
  let history := Json.pyGetD input "history" (.arr [])
  let weeks ← histSlice history
  let recent ← recentIdsOf [] weeks
  let meals ← pyIterate weekly_plan
  let reps ← replacementsOf recent meals
  pure (.obj [
    ("updatedWeeklyPlan", weekly_plan),
    ("replacements", .arr reps),
    ("metrics", .obj [
      ("proteinRatio", .num ratQuarter),
      ("carbsRatio", .num ratHalf),
      ("fatRatio", .num ratQuarter),
      ("replacementsCount", .num (reps.length : ℚ)),
      ("varietyScore", .str "unknown"),
      ("cuisineDiversity", .arr []),
      ("repeatedRecipes", .num (reps.length : ℚ))]),
    ("recommendations", .arr [
      .str "Unable to generate detailed recommendations due to error",
      .str ("Error: " ++ errorMsg),
      .str "Manual review recommended for nutritional balance"]),
    ("error", .str errorMsg),
    ("fallbackUsed", .bool true)])

/-- Lines 142-164: the profile extraction and prompt construction that
run before the backend call.  The prompt text itself never influences the
embedded result (the backend is an external parameter), but the dynamic
errors this code can raise do: an untypable join or macro rendering sends
the run to the generic exception handler before any backend call. -/
def promptCheckDiet (input : JObj) : Except PyErr Unit := do
  let up := Json.pyGetD input "userProfile" (.obj [])
  let intolerances ← Json.pyGetAttr up "intolerances" (.arr [])
  let dislikes ← Json.pyGetAttr up "dislikes" (.arr [])
  let pm ← Json.pyGetAttr up "preferredMacros"
      (.obj [("protein", .num ratQuarter), ("carbs", .num ratHalf), ("fat", .num ratQuarter)])
  if Json.truthy intolerances && !(Json.joinable intolerances) then throw .typeError
  if Json.truthy dislikes && !(Json.joinable dislikes) then throw .typeError
  let pr ← Json.pyGetAttr pm "protein" (.num ratQuarter)
  let cr ← Json.pyGetAttr pm "carbs" (.num ratHalf)
  let fr ← Json.pyGetAttr pm "fat" (.num ratQuarter)
  if !(Json.intMulOk pr) || !(Json.intMulOk cr) || !(Json.intMulOk fr) then
    throw .typeError
  pure ()

/-- One step of the required-key loop (lines 194-200): `if key not in
result: result[key] = default`. -/
def keyStep (r : Json) (k : String) (d : Json) : Except PyErr Json := do
  let present ← Json.keyIn k r
  if present then pure r else Json.setItem r k d

/-- Lines 194-200: fill the three required keys with their defaults
(`updatedWeeklyPlan` defaults to the input's `weeklyPlan`). -/
def validateKeysDiet (input : JObj) (result : Json) : Except PyErr Json := do
  let r1 ← keyStep result "updatedWeeklyPlan" (Json.pyGetD input "weeklyPlan" (.arr []))
  let r2 ← keyStep r1 "replacements" (.arr [])
  keyStep r2 "metrics" (.obj [])

/-- `analyze_diet_balance` (lines 130-211), instrumented with the number
of backend invocations.  `bs n` is the outcome the backend would produce
on its `n`-th invocation; the second component counts how many
invocations actually happen. -/
def analyze_diet_balance_instr (input : JObj) (bs : ℕ → Backend) :
    Except PyErr Json × ℕ :=
  match promptCheckDiet input with
  | .error e => (create_fallback_response input (PyErr.message e), 0)
  | .ok _ =>
    match bs 0 with
    | .raised msg => (create_fallback_response input msg, 1)
    | .returned text =>
        let rt := stripMdBalanced (pyStrip text)
        match PyJson.loads rt with
        | none => (create_fallback_response input (PyErr.message .jsonDecodeError), 1)
        | some r =>
            match validateKeysDiet input r with
            | .ok res => (.ok res, 1)
            | .error e => (create_fallback_response input (PyErr.message e), 1)

/-- `analyze_diet_balance` for a single backend outcome. -/
def analyze_diet_balance (input : JObj) (b : Backend) : Except PyErr Json :=
  (analyze_diet_balance_instr input (fun _ => b)).1

/-! ### Waste reduction agent — `src/agent/waste_reduction_agent.py` -/

/-- Lines 112-128: profile extraction and prompt construction before the
backend call (same join semantics as the diet agent, no macros). -/
def promptCheckWaste (input : JObj) : Except PyErr Unit := do
  let up := Json.pyGetD input "userProfile" (.obj [])
  let intolerances ← Json.pyGetAttr up "intolerances" (.arr [])
  let dislikes ← Json.pyGetAttr up "dislikes" (.arr [])
  if Json.truthy intolerances && !(Json.joinable intolerances) then throw .typeError
  if Json.truthy dislikes && !(Json.joinable dislikes) then throw .typeError
  pure ()

/-- The fallback dict of the `json.JSONDecodeError` handler
(lines 169-176). -/
def wasteFallbackJsonErr (input : JObj) (errorMsg : String) : Json :=
  .obj [
    ("optimizedRecipes", Json.pyGetD input "recipes" (.arr [])),
    ("shoppingList", .arr []),
    ("substitutionSuggestions", .arr []),
    ("wasteReductionTips", .arr [.str "Unable to generate recommendations. Using original recipes."]),
    ("estimatedWasteReduction", .str "0%"),
    ("error", .str errorMsg)]

/-- The fallback dict of the generic `Exception` handler
(lines 179-186). -/
def wasteFallbackGeneric (input : JObj) (errorMsg : String) : Json :=
  .obj [
    ("optimizedRecipes", Json.pyGetD input "recipes" (.arr [])),
    ("shoppingList", .arr []),
    ("substitutionSuggestions", .arr []),
    ("wasteReductionTips", .arr [.str "Error occurred during analysis. Using original recipes."]),
    ("estimatedWasteReduction", .str "0%"),
    ("error", .str errorMsg)]

/-- Lines 158-161: fill the three required keys with empty lists. -/
def validateKeysWaste (result : Json) : Except PyErr Json := do
  let r1 ← keyStep result "optimizedRecipes" (.arr [])
  let r2 ← keyStep r1 "shoppingList" (.arr [])
  keyStep r2 "substitutionSuggestions" (.arr [])

/-- `analyze_waste_reduction` (lines 101-186), instrumented with the
backend invocation count.  Both exception handlers return plain dicts, so
this function never raises: every branch is `Except.ok`. -/
def analyze_waste_reduction_instr (input : JObj) (bs : ℕ → Backend) :
    Except PyErr Json × ℕ :=
  match promptCheckWaste input with
  | .error e => (.ok (wasteFallbackGeneric input (PyErr.message e)), 0)
  | .ok _ =>
    match bs 0 with
    | .raised msg => (.ok (wasteFallbackGeneric input msg), 1)
    | .returned text =>
        let rt := stripMdBalanced (pyStrip text)
        match PyJson.loads rt with
        | none => (.ok (wasteFallbackJsonErr input (PyErr.message .jsonDecodeError)), 1)
        | some r =>
            match validateKeysWaste r with
            | .ok res => (.ok res, 1)
            | .error e => (.ok (wasteFallbackGeneric input (PyErr.message e)), 1)

/-- `analyze_waste_reduction` for a single backend outcome. -/
def analyze_waste_reduction (input : JObj) (b : Backend) : Except PyErr Json :=
  (analyze_waste_reduction_instr input (fun _ => b)).1

/-! ### Weekly planner validation — `src/agent/meal_planner.py` -/

/-- The seven weekday names (`required_days`, line 108). -/
def requiredDays : List String :=
  ["monday", "tuesday", "wednesday", "thursday", "friday", "saturday", "sunday"]

/-- Lines 110-112: raise `ValueError` at the first required day not in
`days`. -/
def checkDaysLoop (days : Json) : List String → Except PyErr Unit
  | [] => .ok ()
  | d :: rest => do
      let present ← Json.keyIn d days
      if present then checkDaysLoop days rest
      else throw (.valueError ("Missing day: " ++ d))

/-- Line 115: `{r["id"] for r in recipes}` — collect every recipe's id
(subscript raises on non-dicts and missing ids, the set insertion on
unhashable ids).  Modelled as the list of ids in order; only membership
is used downstream. -/
def buildIdsLoop : List Json → Except PyErr (List Json)
  | [] => .ok []
  | r :: rest => do
      let rid ← Json.subscript r "id"
      if ¬ Json.hashable rid then throw .typeError
      let tail ← buildIdsLoop rest
      pure (rid :: tail)

/-- Python `v.items()`: dicts only (`AttributeError` otherwise). -/
def itemsOf (v : Json) : Except PyErr JObj :=
  match v with
  | .obj f => .ok f
  | _ => .error .attributeError

/-- Lines 116-118: raise `ValueError` at the first day whose recipe id is
not in the pool (the set probe hashes the id first).  The source message
also interpolates the offending day and id; the claims only rely on the
error's presence, so the rendering keeps the fixed text. -/
def checkIdsLoop (ids : List Json) : JObj → Except PyErr Unit
  | [] => .ok ()
  | (_, rid) :: rest => do
      if ¬ Json.hashable rid then throw .typeError
      if ids.contains rid then checkIdsLoop ids rest
      else throw (.valueError "Invalid recipe ID")

/-- Association list with `Json` keys for `recipe_map` (Python dict keys
may be any hashable value). -/
def mapFind : List (Json × Json) → Json → Option Json
  | [], _ => none
  | (k', v') :: rest, k => if k' = k then some v' else mapFind rest k

/-- Dict insert with `Json` keys (replace in place or append). -/
def mapSet (m : List (Json × Json)) (k : Json) (v : Json) : List (Json × Json) :=
  match m with
  | [] => [(k, v)]
  | (k', v') :: rest =>
      if k' = k then (k, v) :: rest else (k', v') :: mapSet rest k v

/-- Line 121: `recipe_map = {r["id"]: r for r in recipes}`. -/
def buildMapLoop (acc : List (Json × Json)) : List Json → Except PyErr (List (Json × Json))
  | [] => .ok acc
  | r :: rest => do
      let rid ← Json.subscript r "id"
      if ¬ Json.hashable rid then throw .typeError
      buildMapLoop (mapSet acc rid r) rest

/-- Lines 122-129: per-day cook-time check.  Warnings (`print` calls) are
collected as `(day, cook_time, max_cook_mins)` triples in iteration
order; the plan is never modified and no over-budget day raises. -/
def warnsLoop (rmap : List (Json × Json)) (prefs : JObj) :
    JObj → Except PyErr (List (String × Json × Json))
  | [] => .ok []
  | (day, rid) :: rest => do
      let recipe ←
        match mapFind rmap rid with
        | some r => Except.ok r
        | none => Except.error .keyError
      let ct0 ← Json.pyGetAttr recipe "cookTimeMins" .null
      let ct ← if Json.truthy ct0 then pure ct0
               else Json.pyGetAttr recipe "cook_time_minutes" (.num 0)
      let dayPrefs := Json.pyGetD prefs day (.obj [])
      let mx ← Json.pyGetAttr dayPrefs "maxCookMins" (.num 30)
      let over ← Json.pyGt ct mx
      let tail ← warnsLoop rmap prefs rest
      pure (if over then (day, ct, mx) :: tail else tail)

/-- `validate_plan` (lines 88-134): sanitize, parse, check structure and
recipe ids, then warn (never reject) on cook-time violations, returning
the parsed plan unchanged together with the collected warnings. -/
def validate_plan (plan_text : String) (recipes : List Json) (weekday_prefs : JObj) :
    Except PyErr (Json × List (String × Json × Json)) := do
  let text := stripMdPlanner plan_text
  match PyJson.loads text with
  | none => throw (.valueError "Invalid JSON response")
  | some plan => do
      let hasPlanId ← Json.keyIn "planId" plan
      if ¬ hasPlanId then throw (.valueError "Missing required fields: planId or days")
      let hasDays ← Json.keyIn "days" plan
      if ¬ hasDays then throw (.valueError "Missing required fields: planId or days")
      let days ← Json.subscript plan "days"
      checkDaysLoop days requiredDays
      let ids ← buildIdsLoop recipes
      let items ← itemsOf days
      checkIdsLoop ids items
      let rmap ← buildMapLoop [] recipes
      let warns ← warnsLoop rmap weekday_prefs items
      pure (plan, warns)

/-! ### Recipe generator — `src/agent/recipe_generator.py` -/

/-- The required-field manifest of `validate_and_parse_recipe`
(line 97). -/
def requiredRecipeFields : List String :=
  ["id", "title", "ingredients", "steps", "cookTimeMins", "tags", "servings"]

/-- Lines 98-100: raise `ValueError` naming the FIRST missing field. -/
def checkFieldsLoop (recipe : Json) : List String → Except PyErr Unit
  | [] => .ok ()
  | f :: rest => do
      let present ← Json.keyIn f recipe
      if present then checkFieldsLoop recipe rest
      else throw (.valueError ("Missing required field: " ++ f))

/-- `validate_and_parse_recipe` (lines 81-104). -/
def validate_and_parse_recipe (response_text : String) : Except PyErr Json := do
  let text := stripMdPlanner response_text
  match PyJson.loads text with
  | none => throw (.valueError "Invalid JSON response")
  | some recipe => do
      checkFieldsLoop recipe requiredRecipeFields
      pure recipe

/-! ### Feedback compactor — `src/agent/feedback_compactor.py` -/

/-- Whether a `Json` value is a Python list. -/
def isJList : Json → Bool
  | .arr _ => true
  | _ => false

/-- Whether a `Json` value is a Python dict. -/
def isJDict : Json → Bool
  | .obj _ => true
  | _ => false

/-- Lines 87-94: the four type checks, each `if key in compacted and not
isinstance(compacted[key], ...)`, raising at the FIRST failing one. -/
def checkFeedbackTypes (c : Json) : Except PyErr Unit := do
  let hasLikes ← Json.keyIn "likes" c
  if hasLikes then
    let v ← Json.subscript c "likes"
    if ¬ isJList v then throw (.valueError "likes must be an array")
  let hasDislikes ← Json.keyIn "dislikes" c
  if hasDislikes then
    let v ← Json.subscript c "dislikes"
    if ¬ isJList v then throw (.valueError "dislikes must be an array")
  let hasIntol ← Json.keyIn "intolerances" c
  if hasIntol then
    let v ← Json.subscript c "intolerances"
    if ¬ isJList v then throw (.valueError "intolerances must be an array")
  let hasWp ← Json.keyIn "weekdayPreferences" c
  if hasWp then
    let v ← Json.subscript c "weekdayPreferences"
    if ¬ isJDict v then throw (.valueError "weekdayPreferences must be an object")
  pure ()

/-- `validate_and_parse_feedback` (lines 71-99). -/
def validate_and_parse_feedback (response_text : String) : Except PyErr Json := do
  let text := stripMdPlanner response_text
  match PyJson.loads text with
  | none => throw (.valueError "Invalid JSON response")
  | some compacted => do
      checkFeedbackTypes compacted
      pure compacted

/-! ### Shopping-list quantity aggregation (spec §4.5)

`src/agent/shopping_normalizer.py` delegates normalization entirely to
the generation backend (the rule lives in the prompt, not in code), so
the aggregation rule itself is modelled from the spec. -/

/-- An input shopping-list entry (`{"name": ..., "qty": ...}` with the
spec's optional preparation notes). -/
structure SIngredient where
  name : String
  qty : String
  notes : List String
deriving DecidableEq, Repr

/-- An exact fraction (numerator/denominator, not reduced), used for
aggregated amounts.  Plain `ℚ` normalizes through `Nat.gcd`, which the
kernel cannot evaluate; this representation keeps the arithmetic
kernel-computable while addition stays commutative and associative. -/
structure Frac where
  num : ℕ
  den : ℕ
deriving DecidableEq, Repr

/-- Fraction addition: `a/b + c/d = (ad + cb)/(bd)`. -/
def Frac.add (a b : Frac) : Frac :=
  ⟨a.num * b.den + b.num * a.den, a.den * b.den⟩

instance : Zero Frac := ⟨⟨0, 1⟩⟩

instance : Add Frac := ⟨Frac.add⟩

instance : AddCommMonoid Frac where
  add_assoc a b c := by
    show Frac.add (Frac.add a b) c = Frac.add a (Frac.add b c)
    simp only [Frac.add, Frac.mk.injEq]
    constructor <;> ring
  zero_add a := by
    show Frac.add ⟨0, 1⟩ a = a
    cases a
    simp [Frac.add]
  add_zero a := by
    show Frac.add a ⟨0, 1⟩ = a
    cases a
    simp [Frac.add]
  add_comm a b := by
    show Frac.add a b = Frac.add b a
    simp only [Frac.add, Frac.mk.injEq]
    constructor <;> ring
  nsmul := nsmulRec

/-- An aggregated quantity: a summed amount with its unit, or an
unparseable quantity string kept verbatim. -/
inductive QtyOut where
  | amt (q : Frac) (unit : String)
  | raw (s : String)
deriving DecidableEq, Repr

/-- A consolidated output entry. -/
structure OutEntry where
  name : String
  qty : QtyOut
  notes : List String
deriving DecidableEq, Repr

/-- Parse an amount: an integer or a simple fraction `a/b` (spec:
"integers or simple fractions"). -/
def parseAmount (s : String) : Option Frac :=
  match PyStr.splitCh '/' s with
  | [a] => (PyStr.natOf? a).map (fun n => ⟨n, 1⟩)
  | [a, b] =>
      match PyStr.natOf? a, PyStr.natOf? b with
      | some x, some y => if y = 0 then none else some ⟨x, y⟩
      | _, _ => none
  | _ => none

/-- Parse a quantity string `"<amount> <unit>"`. -/
def parseQty (q : String) : Option (Frac × String) :=
  match PyStr.splitCh ' ' (pyStrip q) with
  | amt :: rest => (parseAmount amt).map (fun a => (a, PyStr.joinCh ' ' rest))
  | [] => none

/-- Modelled from the spec: canonicalization of an ingredient (or unit)
name — lowercase plus folding through a configured alias table
(§4.5 "Quantity aggregation", e.g. "garbanzo beans" → "chickpeas").
This code is absent from src; the source delegates it to the backend
prompt of `shopping_normalizer.py`. -/
def canonName (aliases : List (String × String)) (s : String) : String :=
  let l := PyStr.toLower (pyStrip s)
  (((aliases.find? (fun p => p.1 = l))).map (fun p => p.2)).getD l

/-- Grouping key of an entry: canonical name, plus either the canonical
unit (parseable quantities merge per unit) or the raw quantity string
(spec: unparseable quantities stay separate line items). -/
def aggKey (na ua : List (String × String)) (i : SIngredient) : String × String :=
  (canonName na i.name,
   match parseQty i.qty with
   | some (_, u) => "unit " ++ canonName ua u
   | none => "raw " ++ i.qty)

/-- The parsed amount contributed by an entry (0 for unparseable
quantities, which never merge amounts). -/
def amountOf (i : SIngredient) : Frac :=
  match parseQty i.qty with
  | some (a, _) => a
  | none => 0

/-- Canonically sorted, deduplicated list of strings (used for the union
of preparation notes). -/
def canonSortStr (l : List String) : List String :=
  l.dedup.insertionSort (fun a b => a ≤ b)

/-- Lexicographic order on grouping keys, used for the spec's
"sorted alphabetically by canonical name" output order. -/
def keyLE (a b : String × String) : Prop :=
  a.1 < b.1 ∨ (a.1 = b.1 ∧ a.2 ≤ b.2)

instance : DecidableRel keyLE :=
  fun _ _ => inferInstanceAs (Decidable (_ ∨ _))

instance : IsTotal (String × String) keyLE where
  total a b := by
    rcases lt_trichotomy a.1 b.1 with h | h | h
    · exact Or.inl (Or.inl h)
    · rcases le_total a.2 b.2 with h2 | h2
      · exact Or.inl (Or.inr ⟨h, h2⟩)
      · exact Or.inr (Or.inr ⟨h.symm, h2⟩)
    · exact Or.inr (Or.inl h)

instance : IsTrans (String × String) keyLE where
  trans a b c hab hbc := by
    rcases hab with h1 | ⟨h1, h1'⟩
    · rcases hbc with h2 | ⟨h2, _⟩
      · exact Or.inl (h1.trans h2)
      · exact Or.inl (h2 ▸ h1)
    · rcases hbc with h2 | ⟨h2, h2'⟩
      · exact Or.inl (h1 ▸ h2)
      · exact Or.inr ⟨h1.trans h2, h1'.trans h2'⟩

instance : IsAntisymm (String × String) keyLE where
  antisymm a b hab hba := by
    rcases hab with h1 | ⟨h1, h1'⟩
    · rcases hba with h2 | ⟨h2, _⟩
      · exact absurd (h1.trans h2) (lt_irrefl _)
      · exact absurd (h2 ▸ h1) (lt_irrefl _)
    · rcases hba with h2 | ⟨h2, h2'⟩
      · exact absurd (h1 ▸ h2) (lt_irrefl _)
      · exact Prod.ext h1 (le_antisymm h1' h2')

/-- Canonically sorted, deduplicated key list. -/
def sortKeys (l : List (String × String)) : List (String × String) :=
  l.dedup.insertionSort keyLE

/-- The consolidated entry for one grouping key: amounts of the group
summed (spec: "quantities with identical units are summed
arithmetically"), notes unioned. -/
def entryFor (na ua : List (String × String)) (l : List SIngredient)
    (k : String × String) : OutEntry :=
  let es := l.filter (fun i => aggKey na ua i = k)
  { name := k.1,
    qty := if PyStr.startsWith "unit " k.2 then
             .amt ((es.map amountOf).sum) (PyStr.dropStr 5 k.2)
           else .raw (PyStr.dropStr 4 k.2),
    notes := canonSortStr (es.flatMap (fun i => i.notes)) }

/-- Modelled from the spec: the shopping-list quantity-aggregation rule
of §4.5 (absent from src — `normalize_shopping_list` sends the list to
the generation backend).  Canonicalize names via the alias tables, merge
same-unit quantities by arithmetic sum, keep unparseable quantities as
separate line items, union notes, and sort output by canonical name. -/
def normalizeShoppingList (na ua : List (String × String))
    (l : List SIngredient) : List OutEntry :=
  (sortKeys (l.map (aggKey na ua))).map (entryFor na ua l)

/-! ## Claims

Each claim of the specification gets one theorem (plus a witness or a
counterexample where required).  Shared helper definitions and lemmas
come first. -/

/-- A diet-balance request whose profile carries the given intolerance
list (weekly plan, history, dislikes and preferred macros arbitrary). -/
def mkDietInput (wp hist : Json) (tol : List String) (dis pm : Json) : JObj :=
  [("weeklyPlan", wp), ("history", hist),
   ("userProfile", .obj [("intolerances", .arr (tol.map Json.str)),
                         ("dislikes", dis), ("preferredMacros", pm)])]

/-- A waste-reduction request whose profile carries the given intolerance
list. -/
def mkWasteInput (recs : Json) (tol : List String) (dis : Json) : JObj :=
  [("recipes", recs),
   ("userProfile", .obj [("intolerances", .arr (tol.map Json.str)), ("dislikes", dis)])]

/-- A list of strings is always joinable. -/
theorem joinable_strList (l : List String) :
    Json.joinable (.arr (l.map Json.str)) = true := by
  induction l with
  | nil => rfl
  | cons a t ih =>
      simp only [List.map_cons, Json.joinable, List.all_cons] at *
      exact ih

/-- The prompt-construction stage of the diet agent treats any two
(string-list) intolerance configurations alike. -/
theorem promptCheckDiet_tol_irrel (wp hist : Json) (dis pm : Json)
    (tol₁ tol₂ : List String) :
    promptCheckDiet (mkDietInput wp hist tol₁ dis pm) =
    promptCheckDiet (mkDietInput wp hist tol₂ dis pm) := by
  simp [promptCheckDiet, mkDietInput, Json.pyGetD, Json.pyGetAttr, Json.jget,
        List.find?, joinable_strList, Bind.bind, Except.bind]

/-- The prompt-construction stage of the waste agent treats any two
(string-list) intolerance configurations alike. -/
theorem promptCheckWaste_tol_irrel (recs : Json) (dis : Json)
    (tol₁ tol₂ : List String) :
    promptCheckWaste (mkWasteInput recs tol₁ dis) =
    promptCheckWaste (mkWasteInput recs tol₂ dis) := by
  simp [promptCheckWaste, mkWasteInput, Json.pyGetD, Json.pyGetAttr, Json.jget,
        List.find?, joinable_strList, Bind.bind, Except.bind]

/-- The recipe titles appearing in a diet-balance result's
`updatedWeeklyPlan`. -/
def recipeTitles (result : Json) : List String :=
  match result with
  | .obj f =>
      match Json.jget f "updatedWeeklyPlan" with
      | some (.arr meals) =>
          meals.filterMap (fun m =>
            match m with
            | .obj mf =>
                match Json.jget mf "recipe" with
                | some (.obj rf) =>
                    match Json.jget rf "title" with
                    | some (.str t) => some t
                    | _ => none
                | _ => none
            | _ => none)
      | _ => []
  | _ => []

/-- The intolerance names declared by a request's profile. -/
def profileIntolerances (input : JObj) : List String :=
  match Json.pyGetD input "userProfile" (.obj []) with
  | .obj up =>
      match Json.jget up "intolerances" with
      | some (.arr l) => l.filterMap (fun j => match j with | .str s => some s | _ => none)
      | _ => []
  | _ => []

/-- Request declaring a "peanut" intolerance. -/
def c1Input : JObj :=
  [("userProfile", Json.obj [("intolerances", Json.arr [Json.str "peanut"])]),
   ("weeklyPlan", Json.arr [])]

/-- A well-formed backend response that suggests a recipe named
"peanut". -/
def c1Response : String :=
  "\x7b\"updatedWeeklyPlan\":[\x7b\"recipe\":\x7b\"id\":\"r1\",\"title\":\"peanut\"\x7d\x7d],\"replacements\":[],\"metrics\":\x7b\x7d\x7d"

/-- The artifact the pipeline returns for `c1Input`/`c1Response`. -/
def c1Result : Json :=
  .obj [("updatedWeeklyPlan", .arr [.obj [("recipe",
            .obj [("id", .str "r1"), ("title", .str "peanut")])]]),
        ("replacements", .arr []),
        ("metrics", .obj [])]

/-- C1, counterexample: with a declared "peanut" intolerance, a backend
response suggesting a recipe whose canonical name is "peanut" is returned
by `analyze_diet_balance` unchanged — no `IntoleranceViolation` rejection
exists in the code. -/
theorem c1_counterexample :
    analyze_diet_balance c1Input (Backend.returned c1Response) = Except.ok c1Result ∧
    (∃ t ∈ recipeTitles c1Result,
        PyStr.toLower t ∈ (profileIntolerances c1Input).map PyStr.toLower) := by
  constructor
  · decide
  · decide

/-- C1 (amended): the pipelines never check the backend's artifact
against the profile's intolerances.  For a fixed backend outcome the
result of `analyze_diet_balance` and `analyze_waste_reduction` is
invariant under replacing the declared intolerance list by any other:
intolerances only influence the prompt text, and a suggested artifact
matching an intolerance is passed through silently. -/
theorem c1_intolerances_not_checked (wp hist dis pm recs : Json)
    (tol₁ tol₂ : List String) (b : Backend) :
    analyze_diet_balance (mkDietInput wp hist tol₁ dis pm) b =
      analyze_diet_balance (mkDietInput wp hist tol₂ dis pm) b ∧
    analyze_waste_reduction (mkWasteInput recs tol₁ dis) b =
      analyze_waste_reduction (mkWasteInput recs tol₂ dis) b := by
  constructor
  · unfold analyze_diet_balance analyze_diet_balance_instr
    rw [promptCheckDiet_tol_irrel wp hist dis pm tol₁ tol₂]
    cases promptCheckDiet (mkDietInput wp hist tol₂ dis pm) with
    | error e => rfl
    | ok u =>
      cases b with
      | raised msg => rfl
      | returned text =>
        dsimp only
        cases PyJson.loads (stripMdBalanced (pyStrip text)) with
        | none => rfl
        | some r =>
          dsimp only
          rw [show validateKeysDiet (mkDietInput wp hist tol₁ dis pm) r =
                validateKeysDiet (mkDietInput wp hist tol₂ dis pm) r from rfl]
          cases validateKeysDiet (mkDietInput wp hist tol₂ dis pm) r with
          | ok res => rfl
          | error e => rfl
  · unfold analyze_waste_reduction analyze_waste_reduction_instr
    rw [promptCheckWaste_tol_irrel recs dis tol₁ tol₂]
    cases promptCheckWaste (mkWasteInput recs tol₂ dis) with
    | error e => rfl
    | ok u =>
      cases b with
      | raised msg => rfl
      | returned text =>
        dsimp only
        cases PyJson.loads (stripMdBalanced (pyStrip text)) with
        | none => rfl
        | some r => rfl

/-- A history entry the fallback can process: a dict whose `recipes`
value is a list of hashable values, a string, or a dict. -/
def weekEntryOk (w : Json) : Bool :=
  match w with
  | .obj f =>
      match Json.pyGetD f "recipes" (.arr []) with
      | .arr l => l.all Json.hashable
      | .str _ => true
      | .obj _ => true
      | _ => false
  | _ => false

/-- A `history` value whose fallback processing cannot raise. -/
def historyOk (h : Json) : Bool :=
  match h with
  | .arr l => (l.drop (l.length - 4)).all weekEntryOk
  | .str s => s.data.isEmpty
  | _ => false

/-- A plan entry the fallback can process: a dict whose `recipe` value
(defaulting to `{}`) is a dict with a hashable id. -/
def mealEntryOk (m : Json) : Bool :=
  match m with
  | .obj f =>
      match Json.pyGetD f "recipe" (.obj []) with
      | .obj rf => Json.hashable (Json.pyGetD rf "id" .null)
      | _ => false
  | _ => false

/-- A `weeklyPlan` value whose fallback processing cannot raise. -/
def weeklyPlanOk (wp : Json) : Bool :=
  match wp with
  | .arr l => l.all mealEntryOk
  | .str s => s.data.isEmpty
  | .obj f => f.isEmpty
  | _ => false

/-- Inputs on which `create_fallback_response` cannot raise. -/
def fallbackSafe (input : JObj) : Bool :=
  historyOk (Json.pyGetD input "history" (.arr [])) &&
  weeklyPlanOk (Json.pyGetD input "weeklyPlan" (.arr []))

/-- Collecting recent ids succeeds on processable history entries. -/
theorem recentIdsOf_isOk (weeks : List Json) (h : weeks.all weekEntryOk = true) :
    ∀ acc, (recentIdsOf acc weeks).isOk = true := by
  induction weeks with
  | nil => intro acc; rfl
  | cons w ws ih =>
      intro acc
      simp only [List.all_cons, Bool.and_eq_true] at h
      obtain ⟨hw, hws⟩ := h
      cases w with
      | obj f =>
          cases hr : Json.pyGetD f "recipes" (.arr []) with
          | arr l =>
              simp only [weekEntryOk, hr] at hw
              simp only [recentIdsOf, Json.pyGetAttr, hr, setUpdate, hw,
                         Bind.bind, Except.bind, if_true]
              exact ih hws _
          | str s =>
              simp only [recentIdsOf, Json.pyGetAttr, hr, setUpdate,
                         Bind.bind, Except.bind]
              exact ih hws _
          | obj g =>
              simp only [recentIdsOf, Json.pyGetAttr, hr, setUpdate,
                         Bind.bind, Except.bind]
              exact ih hws _
          | null => simp [weekEntryOk, hr] at hw
          | bool b => simp [weekEntryOk, hr] at hw
          | num q => simp [weekEntryOk, hr] at hw
      | null => simp [weekEntryOk] at hw
      | bool b => simp [weekEntryOk] at hw
      | num q => simp [weekEntryOk] at hw
      | str s => simp [weekEntryOk] at hw
      | arr l => simp [weekEntryOk] at hw

/-- Flagging repeated meals succeeds on processable plan entries. -/
theorem replacementsOf_isOk (recent : List Json) (meals : List Json)
    (h : meals.all mealEntryOk = true) :
    (replacementsOf recent meals).isOk = true := by
  induction meals with
  | nil => rfl
  | cons m ms ih =>
      simp only [List.all_cons, Bool.and_eq_true] at h
      obtain ⟨hm, hms⟩ := h
      have htl := ih hms
      cases hms' : replacementsOf recent ms with
      | error e => rw [hms'] at htl; simp [Except.isOk, Except.toBool] at htl
      | ok reps =>
          cases m with
          | obj f =>
              cases hr : Json.pyGetD f "recipe" (.obj []) with
              | obj rf =>
                  simp only [mealEntryOk, hr] at hm
                  by_cases hc : Json.pyGetD rf "id" Json.null ∈ recent
                  · simp [replacementsOf, Json.pyGetAttr, hr, hm, hc,
                          Bind.bind, Except.bind, Pure.pure, Except.pure, hms',
                          Except.isOk, Except.toBool]
                  · simp [replacementsOf, Json.pyGetAttr, hr, hm, hc,
                          Bind.bind, Except.bind, Pure.pure, Except.pure, hms',
                          Except.isOk, Except.toBool]
              | null => simp [mealEntryOk, hr] at hm
              | bool b => simp [mealEntryOk, hr] at hm
              | num q => simp [mealEntryOk, hr] at hm
              | str s => simp [mealEntryOk, hr] at hm
              | arr l => simp [mealEntryOk, hr] at hm
          | null => simp [mealEntryOk] at hm
          | bool b => simp [mealEntryOk] at hm
          | num q => simp [mealEntryOk] at hm
          | str s => simp [mealEntryOk] at hm
          | arr l => simp [mealEntryOk] at hm

/-- The diet fallback succeeds on every fallback-safe input. -/
theorem create_fallback_isOk (input : JObj) (msg : String)
    (h : fallbackSafe input = true) :
    (create_fallback_response input msg).isOk = true := by
  unfold fallbackSafe at h
  simp only [Bool.and_eq_true] at h
  obtain ⟨hh, hwp⟩ := h
  have hslice : ∃ weeks, histSlice (Json.pyGetD input "history" (.arr [])) = .ok weeks ∧
      weeks.all weekEntryOk = true := by
    cases hhist : Json.pyGetD input "history" (.arr []) with
    | arr l =>
        rw [hhist] at hh; simp only [historyOk] at hh
        exact ⟨_, rfl, hh⟩
    | str s =>
        rw [hhist] at hh; simp only [historyOk, List.isEmpty_iff] at hh
        refine ⟨_, rfl, ?_⟩
        simp [hh]
    | null => rw [hhist] at hh; simp [historyOk] at hh
    | bool b => rw [hhist] at hh; simp [historyOk] at hh
    | num q => rw [hhist] at hh; simp [historyOk] at hh
    | obj f => rw [hhist] at hh; simp [historyOk] at hh
  have hiter : ∃ meals, pyIterate (Json.pyGetD input "weeklyPlan" (.arr [])) = .ok meals ∧
      meals.all mealEntryOk = true := by
    cases hplan : Json.pyGetD input "weeklyPlan" (.arr []) with
    | arr ms =>
        rw [hplan] at hwp; simp only [weeklyPlanOk] at hwp
        exact ⟨_, rfl, hwp⟩
    | str s =>
        rw [hplan] at hwp; simp only [weeklyPlanOk, List.isEmpty_iff] at hwp
        refine ⟨_, rfl, ?_⟩
        simp [hwp]
    | obj f =>
        rw [hplan] at hwp; simp only [weeklyPlanOk, List.isEmpty_iff] at hwp
        refine ⟨_, rfl, ?_⟩
        simp [hwp]
    | null => rw [hplan] at hwp; simp [weeklyPlanOk] at hwp
    | bool b => rw [hplan] at hwp; simp [weeklyPlanOk] at hwp
    | num q => rw [hplan] at hwp; simp [weeklyPlanOk] at hwp
  obtain ⟨weeks, hweeks, hwall⟩ := hslice
  obtain ⟨meals, hmeals, hmall⟩ := hiter
  have hids := recentIdsOf_isOk weeks hwall []
  cases hids' : recentIdsOf [] weeks with
  | error e => rw [hids'] at hids; simp [Except.isOk, Except.toBool] at hids
  | ok ids =>
      have hreps := replacementsOf_isOk ids meals hmall
      cases hreps' : replacementsOf ids meals with
      | error e => rw [hreps'] at hreps; simp [Except.isOk, Except.toBool] at hreps
      | ok reps =>
          unfold create_fallback_response
          simp [hweeks, hmeals, hids', hreps', Bind.bind, Except.bind,
                Pure.pure, Except.pure, Except.isOk, Except.toBool]

/-- C2, counterexample: an input dictionary with an ill-typed `history`
and a failing backend makes `analyze_diet_balance` raise an unhandled
`TypeError` from inside its own fallback construction. -/
theorem c2_counterexample :
    analyze_diet_balance [("history", Json.num 5)] (Backend.raised "backend unavailable") =
      Except.error PyErr.typeError := by decide

/-- C2 (amended): `analyze_waste_reduction` returns a result dictionary
for every input dictionary and backend outcome; `analyze_diet_balance`
does so for every input whose `history` and `weeklyPlan` the fallback can
process (`fallbackSafe`) — for ill-typed ones (e.g. a numeric `history`)
the fallback itself raises and the error propagates to the caller. -/
theorem c2_totality_amended :
    (∀ (input : JObj) (b : Backend), (analyze_waste_reduction input b).isOk = true) ∧
    (∀ (input : JObj) (b : Backend), fallbackSafe input = true →
        (analyze_diet_balance input b).isOk = true) := by
  constructor
  · intro input b
    unfold analyze_waste_reduction analyze_waste_reduction_instr
    cases promptCheckWaste input with
    | error e => rfl
    | ok u =>
        cases b with
        | raised msg => rfl
        | returned text =>
            dsimp only
            cases PyJson.loads (stripMdBalanced (pyStrip text)) with
            | none => rfl
            | some r =>
                dsimp only
                cases validateKeysWaste r with
                | ok res => rfl
                | error e => rfl
  · intro input b hsafe
    unfold analyze_diet_balance analyze_diet_balance_instr
    cases promptCheckDiet input with
    | error e => exact create_fallback_isOk input _ hsafe
    | ok u =>
        cases b with
        | raised msg => exact create_fallback_isOk input _ hsafe
        | returned text =>
            dsimp only
            cases PyJson.loads (stripMdBalanced (pyStrip text)) with
            | none => exact create_fallback_isOk input _ hsafe
            | some r =>
                dsimp only
                cases validateKeysDiet input r with
                | ok res => rfl
                | error e => exact create_fallback_isOk input _ hsafe

/-- C2, witness: a concrete fallback-safe input on which the diet
pipeline absorbs a raised backend error into a result. -/
theorem c2_witness :
    fallbackSafe [] = true ∧
    (analyze_diet_balance [] (Backend.raised "backend unavailable")).isOk = true :=
  ⟨by decide, c2_totality_amended.2 [] (Backend.raised "backend unavailable") (by decide)⟩

/-- Top-level field lookup on a result dictionary. -/
def lookupKey (r : Json) (k : String) : Option Json :=
  match r with
  | .obj f => Json.jget f k
  | _ => none

/-- Whether a result carries every key of a required-field manifest. -/
def hasAllKeys (r : Json) (ks : List String) : Bool :=
  ks.all (fun k => (lookupKey r k).isSome)

/-- C3, counterexample: when the waste-reduction backend output is
unparseable, the returned fallback result carries no `fallbackUsed` key
at all (the claim requires `fallbackUsed: true` for every fallback). -/
theorem c3_counterexample :
    analyze_waste_reduction [("recipes", Json.arr [])] (Backend.returned "not json") =
      Except.ok (wasteFallbackJsonErr [("recipes", Json.arr [])] "Expecting value") ∧
    lookupKey (wasteFallbackJsonErr [("recipes", Json.arr [])] "Expecting value")
        "fallbackUsed" = none := by
  constructor
  · decide
  · decide

/-- C3 (amended): every fallback result satisfies its use case's schema
(it carries every required key and passes the required-key validator
unchanged) and carries a diagnostic `error` field with the triggering
message; but only the diet-balance fallback sets `fallbackUsed: true` —
the waste-reduction fallbacks omit the key. -/
theorem c3_fallback_schema_amended :
    (∀ (input input' : JObj) (msg : String) (r : Json),
        create_fallback_response input msg = .ok r →
        hasAllKeys r ["updatedWeeklyPlan", "replacements", "metrics"] = true ∧
        validateKeysDiet input' r = .ok r ∧
        lookupKey r "fallbackUsed" = some (.bool true) ∧
        lookupKey r "error" = some (.str msg)) ∧
    (∀ (input : JObj) (msg : String),
        hasAllKeys (wasteFallbackJsonErr input msg)
            ["optimizedRecipes", "shoppingList", "substitutionSuggestions"] = true ∧
        validateKeysWaste (wasteFallbackJsonErr input msg) =
            .ok (wasteFallbackJsonErr input msg) ∧
        lookupKey (wasteFallbackJsonErr input msg) "error" = some (.str msg) ∧
        lookupKey (wasteFallbackJsonErr input msg) "fallbackUsed" = none ∧
        hasAllKeys (wasteFallbackGeneric input msg)
            ["optimizedRecipes", "shoppingList", "substitutionSuggestions"] = true ∧
        validateKeysWaste (wasteFallbackGeneric input msg) =
            .ok (wasteFallbackGeneric input msg) ∧
        lookupKey (wasteFallbackGeneric input msg) "error" = some (.str msg) ∧
        lookupKey (wasteFallbackGeneric input msg) "fallbackUsed" = none) := by
  constructor
  · intro input input' msg r hcf
    unfold create_fallback_response at hcf
    simp only [Bind.bind, Except.bind] at hcf
    cases h1 : histSlice (Json.pyGetD input "history" (.arr [])) with
    | error e => rw [h1] at hcf; simp at hcf
    | ok weeks =>
        rw [h1] at hcf
        dsimp only at hcf
        cases h2 : recentIdsOf [] weeks with
        | error e => rw [h2] at hcf; simp at hcf
        | ok recent =>
            rw [h2] at hcf
            dsimp only at hcf
            cases h3 : pyIterate (Json.pyGetD input "weeklyPlan" (.arr [])) with
            | error e => rw [h3] at hcf; simp at hcf
            | ok meals =>
                rw [h3] at hcf
                dsimp only at hcf
                cases h4 : replacementsOf recent meals with
                | error e => rw [h4] at hcf; simp at hcf
                | ok reps =>
                    rw [h4] at hcf
                    simp only [Pure.pure, Except.pure] at hcf
                    injection hcf with hr
                    subst hr
                    exact ⟨rfl, rfl, rfl, rfl⟩
  · intro input msg
    exact ⟨rfl, rfl, rfl, rfl, rfl, rfl, rfl, rfl⟩

/-- The value of the diet fallback on the empty input with message
"oops". -/
def c3WitnessResult : Json :=
  .obj [
    ("updatedWeeklyPlan", .arr []),
    ("replacements", .arr []),
    ("metrics", .obj [
      ("proteinRatio", .num ratQuarter),
      ("carbsRatio", .num ratHalf),
      ("fatRatio", .num ratQuarter),
      ("replacementsCount", .num 0),
      ("varietyScore", .str "unknown"),
      ("cuisineDiversity", .arr []),
      ("repeatedRecipes", .num 0)]),
    ("recommendations", .arr [
      .str "Unable to generate detailed recommendations due to error",
      .str "Error: oops",
      .str "Manual review recommended for nutritional balance"]),
    ("error", .str "oops"),
    ("fallbackUsed", .bool true)]

/-- C3, witness: the diet fallback on a concrete input carries the
required keys, passes the validator, and sets `fallbackUsed`/`error`. -/
theorem c3_witness :
    hasAllKeys c3WitnessResult ["updatedWeeklyPlan", "replacements", "metrics"] = true ∧
    validateKeysDiet [] c3WitnessResult = .ok c3WitnessResult ∧
    lookupKey c3WitnessResult "fallbackUsed" = some (.bool true) ∧
    lookupKey c3WitnessResult "error" = some (.str "oops") :=
  c3_fallback_schema_amended.1 [] [] "oops" c3WitnessResult (by decide)

/-- The required-field loop reports exactly the first missing field of
the manifest (helper for any manifest list). -/
theorem checkFieldsLoop_first_missing (f : JObj) (ks : List String) (k : String)
    (h : ks.find? (fun fd => (Json.jget f fd).isNone) = some k) :
    checkFieldsLoop (.obj f) ks =
      .error (.valueError ("Missing required field: " ++ k)) := by
  induction ks with
  | nil => simp [List.find?] at h
  | cons k0 rest ih =>
      cases hc : (Json.jget f k0).isNone with
      | true =>
          simp only [List.find?, hc] at h
          injection h with h
          subst h
          have hs : (Json.jget f k0).isSome = false := by
            rw [Option.isNone_iff_eq_none] at hc
            simp [hc]
          simp only [checkFieldsLoop, Json.keyIn, hs, Bind.bind, Except.bind,
                     Bool.false_eq_true, if_false]
          rfl
      | false =>
          simp only [List.find?, hc] at h
          have hs : (Json.jget f k0).isSome = true := by
            cases hj : Json.jget f k0 with
            | none => rw [hj] at hc; simp at hc
            | some v => simp
          simp only [checkFieldsLoop, Json.keyIn, hs, Bind.bind, Except.bind, if_true]
          exact ih h

/-- C4, counterexample: a payload missing every required field and a
payload missing every field but `title` produce the identical
single-field report naming only `id` — the absence of `title` in the
first payload is never reported. -/
theorem c4_counterexample :
    validate_and_parse_recipe "\x7b\x7d" =
      Except.error (PyErr.valueError "Missing required field: id") ∧
    validate_and_parse_recipe "\x7b\"title\":\"T\"\x7d" =
      Except.error (PyErr.valueError "Missing required field: id") := by
  constructor
  · decide
  · decide

/-- C4 (amended): when the parsed payload is missing or mistypes several
required fields, the report names only the FIRST offending field in the
manifest's declaration order: the recipe validator raises for the first
missing field of `requiredRecipeFields`, and the feedback validator
raises for `likes` whenever `likes` is present and ill-typed, regardless
of any later ill-typed fields. -/
theorem c4_first_field_only :
    (∀ (f : JObj) (k : String),
        requiredRecipeFields.find? (fun fd => (Json.jget f fd).isNone) = some k →
        checkFieldsLoop (.obj f) requiredRecipeFields =
          .error (.valueError ("Missing required field: " ++ k))) ∧
    (∀ (f : JObj) (v : Json),
        Json.jget f "likes" = some v → isJList v = false →
        checkFeedbackTypes (.obj f) =
          .error (.valueError "likes must be an array")) := by
  constructor
  · intro f k h
    exact checkFieldsLoop_first_missing f requiredRecipeFields k h
  · intro f v hv hl
    simp [checkFeedbackTypes, Json.keyIn, Json.subscript, hv, hl,
          Bind.bind, Except.bind]

/-- C4, witness: concrete payloads exercising both conjuncts (a recipe
payload missing `id` among others, and a feedback payload whose `likes`
and `dislikes` are both ill-typed yet only `likes` is reported). -/
theorem c4_witness :
    checkFieldsLoop (.obj [("title", Json.str "T")]) requiredRecipeFields =
      .error (.valueError ("Missing required field: " ++ "id")) ∧
    checkFeedbackTypes (.obj [("likes", Json.num 1), ("dislikes", Json.num 2)]) =
      .error (.valueError "likes must be an array") :=
  ⟨c4_first_field_only.1 [("title", Json.str "T")] "id" (by decide),
   c4_first_field_only.2 [("likes", Json.num 1), ("dislikes", Json.num 2)]
     (Json.num 1) (by decide) (by decide)⟩

/-- C5, counterexample: the planner-family sanitizer, on a fenced text of
three lines with no closing marker, silently drops the final content
line "B" (the content lines after the marker are `["A", "B"]` but the
sanitized text is just `"A"`). -/
theorem c5_counterexample :
    stripMdPlanner "```json\nA\nB" = "A" ∧
    (PyStr.splitCh '\n' "```json\nA\nB").drop 1 = ["A", "B"] := by
  constructor
  · decide
  · decide

/-- C5 (amended): the balanced-diet/waste-reduction sanitizer removes
exactly the leading marker line — and a trailing line only when it is a
bare closing marker — so when the last line is not a closing marker no
content line is lost; the meal-planner/recipe-generator/feedback
sanitizer instead drops the last line unconditionally whenever a fenced
text has more than two lines (see the counterexample). -/
theorem c5_sanitizer_amended (t : String)
    (h1 : PyStr.startsWith "```" t = true)
    (h2 : (((PyStr.splitCh '\n' t).drop 1).getLast?).all
        (fun last => pyStrip last != "```") = true) :
    stripMdBalanced t = PyStr.joinCh '\n' ((PyStr.splitCh '\n' t).drop 1) := by
  unfold stripMdBalanced
  rw [if_pos h1]
  simp only [List.drop_one] at h2 ⊢
  cases hlast : ((PyStr.splitCh '\n' t).tail).getLast? with
  | none => simp [hlast]
  | some last =>
      rw [hlast] at h2
      simp only [Option.all_some, bne_iff_ne, ne_eq] at h2
      simp [hlast, h2]

/-- C5, witness: on a concrete fenced text with no closing marker the
balanced sanitizer keeps both content lines. -/
theorem c5_witness :
    stripMdBalanced "```json\nA\nB" =
      PyStr.joinCh '\n' ((PyStr.splitCh '\n' "```json\nA\nB").drop 1) ∧
    PyStr.joinCh '\n' ((PyStr.splitCh '\n' "```json\nA\nB").drop 1) = "A\nB" :=
  ⟨c5_sanitizer_amended "```json\nA\nB" (by decide) (by decide), by decide⟩

/-- C8: the generation backend is invoked at most once per run, and the
run's result depends only on the first (hence only) invocation's
outcome: a response that arrives but fails downstream parsing or
validation is turned into a fallback from the structured input without
re-invoking the backend. -/
theorem c8_single_invocation (input : JObj) (bs : ℕ → Backend) :
    (analyze_diet_balance_instr input bs).2 ≤ 1 ∧
    (analyze_diet_balance_instr input bs).1 = analyze_diet_balance input (bs 0) := by
  unfold analyze_diet_balance analyze_diet_balance_instr
  dsimp only
  cases promptCheckDiet input with
  | error e => exact ⟨by dsimp only; omega, rfl⟩
  | ok u =>
      cases hb : bs 0 with
      | raised msg => exact ⟨by dsimp only; omega, rfl⟩
      | returned text =>
          dsimp only
          cases PyJson.loads (stripMdBalanced (pyStrip text)) with
          | none => exact ⟨by dsimp only; omega, rfl⟩
          | some r =>
              dsimp only
              cases validateKeysDiet input r with
              | ok res => exact ⟨by dsimp only; omega, rfl⟩
              | error e => exact ⟨by dsimp only; omega, rfl⟩

/-- Canonical sorted deduplication of strings is permutation-invariant. -/
theorem canonSortStr_perm {l l' : List String} (h : l.Perm l') :
    canonSortStr l = canonSortStr l' := by
  unfold canonSortStr
  exact List.eq_of_perm_of_sorted
    ((List.perm_insertionSort _ _).trans (h.dedup.trans (List.perm_insertionSort _ _).symm))
    (List.sorted_insertionSort _ _) (List.sorted_insertionSort _ _)

/-- Canonical sorted deduplication of grouping keys is
permutation-invariant. -/
theorem sortKeys_perm {l l' : List (String × String)} (h : l.Perm l') :
    sortKeys l = sortKeys l' := by
  unfold sortKeys
  exact List.eq_of_perm_of_sorted
    ((List.perm_insertionSort _ _).trans (h.dedup.trans (List.perm_insertionSort _ _).symm))
    (List.sorted_insertionSort _ _) (List.sorted_insertionSort _ _)

/-- The consolidated entry of any grouping key is permutation-invariant
in the input list. -/
theorem entryFor_perm (na ua : List (String × String))
    {l l' : List SIngredient} (h : l.Perm l') (k : String × String) :
    entryFor na ua l k = entryFor na ua l' k := by
  unfold entryFor
  have hf : (l.filter (fun i => aggKey na ua i = k)).Perm
      (l'.filter (fun i => aggKey na ua i = k)) := h.filter _
  have hsum : ((l.filter (fun i => aggKey na ua i = k)).map amountOf).sum =
      ((l'.filter (fun i => aggKey na ua i = k)).map amountOf).sum :=
    (hf.map amountOf).sum_eq
  have hnotes : canonSortStr ((l.filter (fun i => aggKey na ua i = k)).flatMap
        (fun i => i.notes)) =
      canonSortStr ((l'.filter (fun i => aggKey na ua i = k)).flatMap
        (fun i => i.notes)) :=
    canonSortStr_perm (hf.flatMap_right _)
  dsimp only
  rw [hsum, hnotes]

/-- C9: spec-modelled shopping-list quantity aggregation is invariant
under permuting the input entries — merging is commutative and
associative for same-unit quantities, so any two orders of the same
ingredient multiset consolidate to the identical sorted list. -/
theorem c9_aggregation_perm_invariant (na ua : List (String × String))
    (l l' : List SIngredient) (h : l.Perm l') :
    normalizeShoppingList na ua l = normalizeShoppingList na ua l' := by
  unfold normalizeShoppingList
  rw [sortKeys_perm (h.map (aggKey na ua))]
  exact List.map_congr_left (fun k _ => entryFor_perm na ua h k)

/-- C9, witness: merging "2 cans" and "1 can" of chickpeas yields
"3 cans" in either input order. -/
theorem c9_witness :
    ([⟨"chickpeas", "2 cans", []⟩, ⟨"chickpeas", "1 can", []⟩] : List SIngredient).Perm
        [⟨"chickpeas", "1 can", []⟩, ⟨"chickpeas", "2 cans", []⟩] ∧
    normalizeShoppingList [] [("can", "cans")]
        [⟨"chickpeas", "2 cans", []⟩, ⟨"chickpeas", "1 can", []⟩] =
      normalizeShoppingList [] [("can", "cans")]
        [⟨"chickpeas", "1 can", []⟩, ⟨"chickpeas", "2 cans", []⟩] ∧
    normalizeShoppingList [] [("can", "cans")]
        [⟨"chickpeas", "2 cans", []⟩, ⟨"chickpeas", "1 can", []⟩] =
      [⟨"chickpeas", .amt ⟨3, 1⟩ "cans", []⟩] :=
  ⟨by decide,
   c9_aggregation_perm_invariant [] [("can", "cans")] _ _ (by decide),
   by decide⟩

/-- The recipe ids recorded by one history entry (spec: "each holding the
set of recipe ids consumed that week"). -/
def weekRecipes (w : Json) : List Json :=
  match w with
  | .obj f =>
      match Json.pyGetD f "recipes" (.arr []) with
      | .arr l => l
      | _ => []
  | _ => []

/-- A fully well-typed history entry: a dict whose `recipes` value is a
list of hashable ids. -/
def weekStrictOk (w : Json) : Bool :=
  match w with
  | .obj f =>
      match Json.pyGetD f "recipes" (.arr []) with
      | .arr l => l.all Json.hashable
      | _ => false
  | _ => false

/-- The id assigned to a plan entry's recipe. -/
def mealRecipeId (m : Json) : Json :=
  match m with
  | .obj f =>
      match Json.pyGetD f "recipe" (.obj []) with
      | .obj rf => Json.pyGetD rf "id" .null
      | _ => .null
  | _ => .null

/-- The ids of the "past 4 weeks" window: the last 4 history entries (or
all of them when history is shorter). -/
def recentWindow (hist : List Json) : List Json :=
  (hist.drop (hist.length - 4)).flatMap weekRecipes

/-- The plan entries flagged for replacement: exactly those whose recipe
id occurs in the window. -/
def flaggedMeals (hist : List Json) (meals : List Json) : List Json :=
  meals.filter (fun m => (recentWindow hist).contains (mealRecipeId m))

/-- The replacement record the fallback emits for one flagged meal. -/
def mkReplacement (m : Json) : Json :=
  match m with
  | .obj f =>
      match Json.pyGetD f "recipe" (.obj []) with
      | .obj rf =>
          .obj [
            ("day", Json.pyGetD f "day" .null),
            ("mealType", Json.pyGetD f "mealType" .null),
            ("originalRecipeId", Json.pyGetD rf "id" .null),
            ("originalRecipeTitle", Json.pyGetD rf "title" .null),
            ("newRecipeId", .str "replacement_needed"),
            ("newRecipeTitle", .str "Please select alternative"),
            ("reason", .str "Recipe used in past 4 weeks")]
      | _ => .null
  | _ => .null

/-- On fully well-typed history windows, collecting recent ids
accumulates exactly the concatenation of the entries' recipe lists. -/
theorem recentIdsOf_eq (weeks : List Json) (h : weeks.all weekStrictOk = true) :
    ∀ acc, recentIdsOf acc weeks = .ok (acc ++ weeks.flatMap weekRecipes) := by
  induction weeks with
  | nil => intro acc; simp [recentIdsOf]
  | cons w ws ih =>
      intro acc
      simp only [List.all_cons, Bool.and_eq_true] at h
      obtain ⟨hw, hws⟩ := h
      cases w with
      | obj f =>
          cases hr : Json.pyGetD f "recipes" (.arr []) with
          | arr l =>
              simp only [weekStrictOk, hr] at hw
              simp only [recentIdsOf, Json.pyGetAttr, hr, setUpdate, hw,
                         Bind.bind, Except.bind, if_true]
              rw [ih hws (acc ++ l)]
              simp [weekRecipes, hr, List.flatMap_cons, List.append_assoc]
          | null => simp [weekStrictOk, hr] at hw
          | bool b => simp [weekStrictOk, hr] at hw
          | num q => simp [weekStrictOk, hr] at hw
          | str s => simp [weekStrictOk, hr] at hw
          | obj g => simp [weekStrictOk, hr] at hw
      | null => simp [weekStrictOk] at hw
      | bool b => simp [weekStrictOk] at hw
      | num q => simp [weekStrictOk] at hw
      | str s => simp [weekStrictOk] at hw
      | arr l => simp [weekStrictOk] at hw

/-- On well-typed plan entries, the fallback flags exactly the meals
whose recipe id is among the recent ids, emitting `mkReplacement`
records in plan order. -/
theorem replacementsOf_eq (recent : List Json) (meals : List Json)
    (h : meals.all mealEntryOk = true) :
    replacementsOf recent meals =
      .ok ((meals.filter (fun m => recent.contains (mealRecipeId m))).map
        mkReplacement) := by
  induction meals with
  | nil => simp [replacementsOf]
  | cons m ms ih =>
      simp only [List.all_cons, Bool.and_eq_true] at h
      obtain ⟨hm, hms⟩ := h
      cases m with
      | obj f =>
          cases hr : Json.pyGetD f "recipe" (.obj []) with
          | obj rf =>
              simp only [mealEntryOk, hr] at hm
              have hid : mealRecipeId (.obj f) = Json.pyGetD rf "id" Json.null := by
                simp [mealRecipeId, hr]
              by_cases hc : Json.pyGetD rf "id" Json.null ∈ recent
              · simp only [replacementsOf, Json.pyGetAttr, hr, hm,
                           Bind.bind, Except.bind, Pure.pure, Except.pure]
                rw [ih hms]
                simp [List.filter_cons, hid, hc, mkReplacement, hr]
              · simp only [replacementsOf, Json.pyGetAttr, hr, hm,
                           Bind.bind, Except.bind, Pure.pure, Except.pure]
                rw [ih hms]
                simp [List.filter_cons, hid, hc]
          | null => simp [mealEntryOk, hr] at hm
          | bool b => simp [mealEntryOk, hr] at hm
          | num q => simp [mealEntryOk, hr] at hm
          | str s => simp [mealEntryOk, hr] at hm
          | arr l => simp [mealEntryOk, hr] at hm
      | null => simp [mealEntryOk] at hm
      | bool b => simp [mealEntryOk] at hm
      | num q => simp [mealEntryOk] at hm
      | str s => simp [mealEntryOk] at hm
      | arr l => simp [mealEntryOk] at hm

/-- The full result dictionary emitted by the diet fallback, as a
function of the plan, the replacement records and the message. -/
def fallbackResultFields (meals reps : List Json) (msg : String) : JObj :=
  [("updatedWeeklyPlan", .arr meals),
   ("replacements", .arr reps),
   ("metrics", .obj [
      ("proteinRatio", .num ratQuarter),
      ("carbsRatio", .num ratHalf),
      ("fatRatio", .num ratQuarter),
      ("replacementsCount", .num (reps.length : ℚ)),
      ("varietyScore", .str "unknown"),
      ("cuisineDiversity", .arr []),
      ("repeatedRecipes", .num (reps.length : ℚ))]),
   ("recommendations", .arr [
      .str "Unable to generate detailed recommendations due to error",
      .str ("Error: " ++ msg),
      .str "Manual review recommended for nutritional balance"]),
   ("error", .str msg),
   ("fallbackUsed", .bool true)]

/-- On well-typed inputs the diet fallback returns exactly the
`fallbackResultFields` dictionary whose replacements are the flagged
meals' records. -/
theorem create_fallback_welltyped (input : JObj) (msg : String)
    (hist meals : List Json)
    (H1 : Json.pyGetD input "history" (.arr []) = .arr hist)
    (H2 : hist.all weekStrictOk = true)
    (H3 : Json.pyGetD input "weeklyPlan" (.arr []) = .arr meals)
    (H4 : meals.all mealEntryOk = true) :
    create_fallback_response input msg =
      .ok (.obj (fallbackResultFields meals
        ((flaggedMeals hist meals).map mkReplacement) msg)) := by
  have H2' : (hist.drop (hist.length - 4)).all weekStrictOk = true := by
    rw [List.all_eq_true] at H2 ⊢
    exact fun w hw => H2 w (List.drop_subset _ _ hw)
  have hrecent := recentIdsOf_eq _ H2' []
  have hreps := replacementsOf_eq (recentWindow hist) meals H4
  unfold create_fallback_response
  rw [H1, H3]
  simp only [histSlice, pyIterate, Bind.bind, Except.bind]
  rw [hrecent]
  simp only [List.nil_append]
  rw [show (hist.drop (hist.length - 4)).flatMap weekRecipes = recentWindow hist from rfl,
      hreps]
  rfl

/-- C7: in the diet-balance fallback on well-typed inputs, a plan entry
is flagged (a replacement record with reason "Recipe used in past 4
weeks" is emitted for it) exactly when its recipe id occurs in one of
the last 4 history entries (all entries when history is shorter), and
the reported `replacementsCount` equals the number of flagged
entries. -/
theorem c7_fallback_replacements (input : JObj) (msg : String)
    (hist meals : List Json)
    (H1 : Json.pyGetD input "history" (.arr []) = .arr hist)
    (H2 : hist.all weekStrictOk = true)
    (H3 : Json.pyGetD input "weeklyPlan" (.arr []) = .arr meals)
    (H4 : meals.all mealEntryOk = true) :
    ∃ f, create_fallback_response input msg = .ok (.obj f) ∧
      Json.jget f "replacements" =
        some (.arr ((flaggedMeals hist meals).map mkReplacement)) ∧
      (∃ mf, Json.jget f "metrics" = some (.obj mf) ∧
          Json.jget mf "replacementsCount" =
            some (.num ((((flaggedMeals hist meals).map mkReplacement)).length : ℚ))) ∧
      (∀ rep ∈ (flaggedMeals hist meals).map mkReplacement,
          lookupKey rep "reason" = some (.str "Recipe used in past 4 weeks")) ∧
      (∀ m ∈ meals,
          ((∃ w ∈ hist.drop (hist.length - 4), mealRecipeId m ∈ weekRecipes w) ↔
            m ∈ flaggedMeals hist meals)) := by
  refine ⟨_, create_fallback_welltyped input msg hist meals H1 H2 H3 H4, rfl,
    ⟨_, rfl, rfl⟩, ?_, ?_⟩
  · intro rep hrep
    obtain ⟨m, hmflag, rfl⟩ := List.mem_map.mp hrep
    have hmm : m ∈ meals := List.mem_of_mem_filter hmflag
    have hok : mealEntryOk m = true := (List.all_eq_true.mp H4) m hmm
    cases m with
    | obj mf' =>
        cases hr : Json.pyGetD mf' "recipe" (.obj []) with
        | obj rf =>
            simp only [mkReplacement, hr]
            rfl
        | null => simp [mealEntryOk, hr] at hok
        | bool b => simp [mealEntryOk, hr] at hok
        | num q => simp [mealEntryOk, hr] at hok
        | str s => simp [mealEntryOk, hr] at hok
        | arr l => simp [mealEntryOk, hr] at hok
    | null => simp [mealEntryOk] at hok
    | bool b => simp [mealEntryOk] at hok
    | num q => simp [mealEntryOk] at hok
    | str s => simp [mealEntryOk] at hok
    | arr l => simp [mealEntryOk] at hok
  · intro m hmm
    simp only [flaggedMeals, List.mem_filter, recentWindow, List.mem_flatMap]
    constructor
    · rintro ⟨w, hw, hmem⟩
      refine ⟨hmm, ?_⟩
      simp only [List.elem_eq_mem, List.mem_flatMap, decide_eq_true_eq]
      exact ⟨w, hw, hmem⟩
    · rintro ⟨-, hc⟩
      simp only [List.elem_eq_mem, List.mem_flatMap, decide_eq_true_eq] at hc
      exact hc

/-- History for the C7 witness: `r_001` consumed in the most recent
week. -/
def c7Hist : List Json := [Json.obj [("recipes", Json.arr [Json.str "r_001"])]]

/-- Plan for the C7 witness: Monday assigns `r_001`. -/
def c7Meals : List Json :=
  [Json.obj [("day", Json.str "monday"), ("mealType", Json.str "dinner"),
             ("recipe", Json.obj [("id", Json.str "r_001"), ("title", Json.str "Pasta")])]]

/-- Request for the C7 witness. -/
def c7Input : JObj := [("weeklyPlan", Json.arr c7Meals), ("history", Json.arr c7Hist)]

/-- C7, witness: the spec's scenario — `r_001` in week -1 and Monday
assigning `r_001` — flags Monday with reason "Recipe used in past 4
weeks". -/
theorem c7_witness :
    ∃ f, create_fallback_response c7Input "err" = .ok (.obj f) ∧
      Json.jget f "replacements" =
        some (.arr ((flaggedMeals c7Hist c7Meals).map mkReplacement)) ∧
      (∃ mf, Json.jget f "metrics" = some (.obj mf) ∧
          Json.jget mf "replacementsCount" =
            some (.num ((((flaggedMeals c7Hist c7Meals).map mkReplacement)).length : ℚ))) ∧
      (∀ rep ∈ (flaggedMeals c7Hist c7Meals).map mkReplacement,
          lookupKey rep "reason" = some (.str "Recipe used in past 4 weeks")) ∧
      (∀ m ∈ c7Meals,
          ((∃ w ∈ c7Hist.drop (c7Hist.length - 4), mealRecipeId m ∈ weekRecipes w) ↔
            m ∈ flaggedMeals c7Hist c7Meals)) :=
  c7_fallback_replacements c7Input "err" c7Hist c7Meals
    (by decide) (by decide) (by decide) (by decide)

/-- C10: on well-typed inputs, the diet fallback's metrics block is a
fixed constant except for the counts — `proteinRatio` 0.25, `carbsRatio`
0.50, `fatRatio` 0.25, `varietyScore` "unknown", `cuisineDiversity` the
empty list — and `replacementsCount`/`repeatedRecipes` both equal the
number of flagged plan entries; the ratios never depend on the actual
plan's recipe tags. -/
theorem c10_fallback_metrics (input : JObj) (msg : String)
    (hist meals : List Json)
    (H1 : Json.pyGetD input "history" (.arr []) = .arr hist)
    (H2 : hist.all weekStrictOk = true)
    (H3 : Json.pyGetD input "weeklyPlan" (.arr []) = .arr meals)
    (H4 : meals.all mealEntryOk = true) :
    ∃ f n, create_fallback_response input msg = .ok (.obj f) ∧
      Json.jget f "metrics" = some (.obj [
        ("proteinRatio", .num ratQuarter),
        ("carbsRatio", .num ratHalf),
        ("fatRatio", .num ratQuarter),
        ("replacementsCount", .num (n : ℚ)),
        ("varietyScore", .str "unknown"),
        ("cuisineDiversity", .arr []),
        ("repeatedRecipes", .num (n : ℚ))]) ∧
      n = meals.countP (fun m => (recentWindow hist).contains (mealRecipeId m)) ∧
      ratQuarter = 1/4 ∧ ratHalf = 1/2 := by
  refine ⟨_, ((flaggedMeals hist meals).map mkReplacement).length,
    create_fallback_welltyped input msg hist meals H1 H2 H3 H4, rfl, ?_, ?_, ?_⟩
  · simp [flaggedMeals, List.length_map, List.countP_eq_length_filter]
  · rw [ratQuarter, Rat.mk'_eq_divInt]
    norm_num [Rat.divInt_eq_div]
  · rw [ratHalf, Rat.mk'_eq_divInt]
    norm_num [Rat.divInt_eq_div]

/-- C10, witness: a concrete well-typed input (empty history, one meal)
instantiating the metrics characterization. -/
theorem c10_witness :
    ∃ f n, create_fallback_response
        [("weeklyPlan", Json.arr [Json.obj [("day", Json.str "tuesday"),
            ("recipe", Json.obj [("id", Json.str "r_009"), ("title", Json.str "Soup")])]]),
         ("history", Json.arr [])] "e" = .ok (.obj f) ∧
      Json.jget f "metrics" = some (.obj [
        ("proteinRatio", .num ratQuarter),
        ("carbsRatio", .num ratHalf),
        ("fatRatio", .num ratQuarter),
        ("replacementsCount", .num (n : ℚ)),
        ("varietyScore", .str "unknown"),
        ("cuisineDiversity", .arr []),
        ("repeatedRecipes", .num (n : ℚ))]) ∧
      n = ([Json.obj [("day", Json.str "tuesday"),
            ("recipe", Json.obj [("id", Json.str "r_009"), ("title", Json.str "Soup")])]].countP
          (fun m => (recentWindow []).contains (mealRecipeId m))) ∧
      ratQuarter = 1/4 ∧ ratHalf = 1/2 :=
  c10_fallback_metrics _ "e" [] _ (by decide) (by decide) (by decide) (by decide)

/-! ### C6 — cook-time ceiling is warn-only (meal planner) -/

/-- Whether a pool recipe carries this id. -/
def matchesId (k : Json) (r : Json) : Bool :=
  match r with
  | .obj rf => Json.jget rf "id" == some k
  | _ => false

/-- The pool recipe bound to an id (the LAST one with that id, matching
Python's dict-comprehension override semantics). -/
def recipeById (recipes : List Json) (rid : String) : Option Json :=
  recipes.reverse.find? (matchesId (.str rid))

/-- The day's configured cook-time ceiling: `maxCookMins` of the day's
preferences, defaulting to 30 when unspecified (`.null` marks the
ill-typed case the code would raise on). -/
def dayMax (prefs : JObj) (day : String) : Json :=
  match Json.pyGetD prefs day (.obj []) with
  | .obj dpf => Json.pyGetD dpf "maxCookMins" (.num 30)
  | _ => .null

/-- The warnings the claim predicts: one per plan day whose assigned
recipe's `cookTimeMins` strictly exceeds that day's ceiling. -/
def overBudgetWarnings (recipes : List Json) (prefs : JObj) (ds : JObj) :
    List (String × Json × Json) :=
  ds.filterMap (fun p =>
    match p.2 with
    | .str rid =>
        match recipeById recipes rid with
        | some (.obj rf) =>
            match Json.jget rf "cookTimeMins", dayMax prefs p.1 with
            | some (.num c), .num m =>
                if m < c then some (p.1, .num c, .num m) else none
            | _, _ => none
        | _ => none
    | _ => none)

/-- The ids collected from the pool. -/
def poolIds (recipes : List Json) : List Json :=
  recipes.filterMap (fun r => match r with
    | .obj rf => Json.jget rf "id"
    | _ => none)

/-- The required-day loop succeeds when every required day is bound. -/
theorem checkDaysLoop_ok (ds : JObj) (ks : List String)
    (h : ks.all (fun d => (Json.jget ds d).isSome) = true) :
    checkDaysLoop (.obj ds) ks = .ok () := by
  induction ks with
  | nil => rfl
  | cons d rest ih =>
      simp only [List.all_cons, Bool.and_eq_true] at h
      obtain ⟨hd, hrest⟩ := h
      simp only [checkDaysLoop, Json.keyIn, hd, Bind.bind, Except.bind, if_true]
      exact ih hrest

/-- Building the id set succeeds on a well-typed pool and yields exactly
the pool's ids. -/
theorem buildIdsLoop_eq (recipes : List Json)
    (hp : ∀ r ∈ recipes, ∃ rf s, r = .obj rf ∧ Json.jget rf "id" = some (.str s)) :
    buildIdsLoop recipes = .ok (poolIds recipes) := by
  induction recipes with
  | nil => rfl
  | cons r rest ih =>
      obtain ⟨rf, s, rfl, hid⟩ := hp r (List.mem_cons_self r rest)
      have ihr := ih (fun r' hr' => hp r' (List.mem_cons_of_mem _ hr'))
      simp only [buildIdsLoop, Json.subscript, hid, Bind.bind, Except.bind,
                 Json.hashable, Bool.not_eq_true, poolIds, List.filterMap_cons]
      rw [ihr]
      rfl

/-- The id-membership loop succeeds when every plan entry's id is a
string bound in the id set. -/
theorem checkIdsLoop_ok (ids : List Json) (items : JObj)
    (h : ∀ p ∈ items, ∃ rid : String, p.2 = .str rid ∧ (Json.str rid) ∈ ids) :
    checkIdsLoop ids items = .ok () := by
  induction items with
  | nil => rfl
  | cons p rest ih =>
      obtain ⟨rid, hrid, hmem⟩ := h p (List.mem_cons_self p rest)
      have ihr := ih (fun p' hp' => h p' (List.mem_cons_of_mem _ hp'))
      obtain ⟨day, pv⟩ := p
      simp only at hrid
      subst hrid
      simp only [checkIdsLoop, Json.hashable, Bind.bind, Except.bind,
                 Bool.not_eq_true]
      simp [hmem, ihr]
      rfl

/-- Lookup after insert in the `Json`-keyed map. -/
theorem mapFind_mapSet (m : List (Json × Json)) (k v : Json) (k' : Json) :
    mapFind (mapSet m k v) k' = if k = k' then some v else mapFind m k' := by
  induction m with
  | nil => simp [mapSet, mapFind]
  | cons p rest ih =>
      obtain ⟨pk, pv⟩ := p
      by_cases hk : pk = k
      · subst hk
        by_cases h : pk = k'
        · simp [mapSet, mapFind, h]
        · simp [mapSet, mapFind, h]
      · by_cases h : pk = k'
        · have hkk : ¬ k = k' := fun hh => hk (hh ▸ h.symm ▸ rfl)
          have hk2 : ¬ k' = k := by rw [← h]; exact hk
          simp [mapSet, mapFind, hk, h, hkk, hk2]
        · simp [mapSet, mapFind, hk, h, ih]

/-- Building the recipe map succeeds on a well-typed pool, and lookups in
it resolve to the last pool recipe with the looked-up id. -/
theorem buildMapLoop_eq (recipes : List Json)
    (hp : ∀ r ∈ recipes, ∃ rf s, r = .obj rf ∧ Json.jget rf "id" = some (.str s)) :
    ∀ acc, ∃ m, buildMapLoop acc recipes = .ok m ∧
      ∀ k, mapFind m k = ((recipes.reverse.find? (matchesId k)).or (mapFind acc k)) := by
  induction recipes with
  | nil => exact fun acc => ⟨acc, rfl, fun k => by simp⟩
  | cons r rest ih =>
      intro acc
      obtain ⟨rf, s, rfl, hid⟩ := hp r (List.mem_cons_self r rest)
      obtain ⟨m, hm, hfind⟩ := ih (fun r' hr' => hp r' (List.mem_cons_of_mem _ hr'))
        (mapSet acc (.str s) (.obj rf))
      refine ⟨m, ?_, ?_⟩
      · simp only [buildMapLoop, Json.subscript, hid, Json.hashable,
                   Bind.bind, Except.bind, Bool.not_eq_true]
        exact hm
      · intro k
        rw [hfind k, mapFind_mapSet]
        rw [List.reverse_cons, List.find?_append]
        cases hfr : rest.reverse.find? (matchesId k) with
        | some r' => simp
        | none =>
            simp only [Option.none_or]
            by_cases hk : Json.str s = k
            · simp [List.find?, matchesId, hid, hk, beq_iff_eq]
            · have hbeq : (Json.str s == k) = false := beq_eq_false_iff_ne.mpr hk
              simp [List.find?, matchesId, hid, hbeq]
              exact fun hh => absurd hh hk

/-- The cook-time loop succeeds on well-typed entries and emits exactly
the over-budget warnings. -/
theorem warnsLoop_eq (recipes : List Json) (rmap : List (Json × Json)) (prefs : JObj)
    (hfind : ∀ rid : String, mapFind rmap (.str rid) = recipeById recipes rid)
    (items : JObj)
    (h : ∀ p ∈ items, ∃ rid rf c m, p.2 = .str rid ∧
        recipeById recipes rid = some (.obj rf) ∧
        Json.jget rf "cookTimeMins" = some (.num c) ∧ 0 < c ∧
        dayMax prefs p.1 = .num m ∧ 0 ≤ m) :
    warnsLoop rmap prefs items = .ok (overBudgetWarnings recipes prefs items) := by
  induction items with
  | nil => rfl
  | cons p rest ih =>
      obtain ⟨rid, rf, c, m, hpv, hrb, hct, hcpos, hdm, hmpos⟩ :=
        h p (List.mem_cons_self p rest)
      have ihr := ih (fun p' hp' => h p' (List.mem_cons_of_mem _ hp'))
      obtain ⟨day, pv⟩ := p
      simp only at hpv
      subst hpv
      have hdp : ∃ dpf, Json.pyGetD prefs day (.obj []) = .obj dpf ∧
          Json.pyGetD dpf "maxCookMins" (.num 30) = .num m := by
        cases hq : Json.pyGetD prefs day (.obj []) with
        | obj dpf =>
            refine ⟨dpf, rfl, ?_⟩
            unfold dayMax at hdm
            rw [hq] at hdm
            exact hdm
        | null => unfold dayMax at hdm; rw [hq] at hdm; exact absurd hdm (by simp)
        | bool b => unfold dayMax at hdm; rw [hq] at hdm; exact absurd hdm (by simp)
        | num q => unfold dayMax at hdm; rw [hq] at hdm; exact absurd hdm (by simp)
        | str s => unfold dayMax at hdm; rw [hq] at hdm; exact absurd hdm (by simp)
        | arr l => unfold dayMax at hdm; rw [hq] at hdm; exact absurd hdm (by simp)
      obtain ⟨dpf, hdpf, hmx⟩ := hdp
      have hct0 : Json.pyGetD rf "cookTimeMins" Json.null = .num c := by
        simp [Json.pyGetD, hct]
      have hctruthy : Json.truthy (.num c) = true := by
        simp [Json.truthy]
        exact ne_of_gt hcpos
      simp only [warnsLoop, hfind rid, hrb, Json.pyGetAttr, Bind.bind, Except.bind,
                 hct0, hctruthy, hdpf, if_true, Pure.pure, Except.pure]
      rw [show Json.pyGetD dpf "maxCookMins" (.num 30) = .num m from hmx]
      simp only [Json.pyGt, Json.asNum]
      rw [ihr]
      simp only [overBudgetWarnings, List.filterMap_cons, hrb, hct, hdm]
      by_cases hover : m < c
      · simp [hover, overBudgetWarnings]
      · simp [hover, overBudgetWarnings]

/-- C6: on a structurally valid plan whose referenced recipes carry
numeric `cookTimeMins` and whose day ceilings are numeric, `validate_plan`
always succeeds, returns the parsed plan unchanged (it never rejects and
never substitutes a recipe), and reports exactly one warning per day
whose recipe's `cookTimeMins` strictly exceeds that day's ceiling
(default 30 when the day has no configured maximum). -/
theorem c6_cooktime_warn_only (plan_text : String) (recipes : List Json)
    (prefs : JObj) (pf ds : JObj)
    (Hparse : PyJson.loads (stripMdPlanner plan_text) = some (.obj pf))
    (HplanId : (Json.jget pf "planId").isSome = true)
    (Hdays : Json.jget pf "days" = some (.obj ds))
    (Hreq : requiredDays.all (fun d => (Json.jget ds d).isSome) = true)
    (Hpool : ∀ r ∈ recipes, ∃ rf s, r = .obj rf ∧ Json.jget rf "id" = some (.str s))
    (Hentries : ∀ p ∈ ds, ∃ rid rf c m, p.2 = .str rid ∧
        recipeById recipes rid = some (.obj rf) ∧
        Json.jget rf "cookTimeMins" = some (.num c) ∧ 0 < c ∧
        dayMax prefs p.1 = .num m ∧ 0 ≤ m) :
    validate_plan plan_text recipes prefs =
      .ok (.obj pf, overBudgetWarnings recipes prefs ds) := by
  have hcheck : ∀ p ∈ ds, ∃ rid : String, p.2 = .str rid ∧
      (Json.str rid) ∈ poolIds recipes := by
    intro p hp
    obtain ⟨rid, rf, c, m, hpv, hrb, -, -, -, -⟩ := Hentries p hp
    refine ⟨rid, hpv, ?_⟩
    have hmem := List.mem_of_find?_eq_some hrb
    have hpred := List.find?_some hrb
    rw [List.mem_reverse] at hmem
    simp only [matchesId, beq_iff_eq] at hpred
    exact List.mem_filterMap.mpr ⟨.obj rf, hmem, by simp [hpred]⟩
  obtain ⟨rmap, hmap, hmfind⟩ := buildMapLoop_eq recipes Hpool []
  have hmfind' : ∀ rid : String, mapFind rmap (.str rid) = recipeById recipes rid := by
    intro rid
    rw [hmfind (.str rid)]
    simp [mapFind, recipeById]
  have hwarns := warnsLoop_eq recipes rmap prefs hmfind' ds Hentries
  have h1 : Json.keyIn "planId" (.obj pf) = .ok true := by
    simp [Json.keyIn, HplanId]
  have h2 : Json.keyIn "days" (.obj pf) = .ok true := by
    simp [Json.keyIn, Hdays]
  have h3 : Json.subscript (.obj pf) "days" = .ok (.obj ds) := by
    simp [Json.subscript, Hdays]
  unfold validate_plan
  dsimp only
  rw [Hparse]
  dsimp only
  simp only [Bind.bind, Except.bind, h1, h2, h3,
             checkDaysLoop_ok ds requiredDays Hreq,
             buildIdsLoop_eq recipes Hpool, itemsOf,
             checkIdsLoop_ok (poolIds recipes) ds hcheck,
             hmap, hwarns, Pure.pure, Except.pure]
  simp

/-- Recipe pool for the C6 witness: `r_001` cooks in 20 minutes, `r_002`
in 10. -/
def c6Recipes : List Json :=
  [Json.obj [("id", Json.str "r_001"), ("cookTimeMins", Json.num 20)],
   Json.obj [("id", Json.str "r_002"), ("cookTimeMins", Json.num 10)]]

/-- Preferences for the C6 witness: Monday's ceiling is 15 minutes. -/
def c6Prefs : JObj := [("monday", Json.obj [("maxCookMins", Json.num 15)])]

/-- The day assignment of the C6 witness plan. -/
def c6Ds : JObj :=
  [("monday", Json.str "r_001"), ("tuesday", Json.str "r_002"),
   ("wednesday", Json.str "r_002"), ("thursday", Json.str "r_002"),
   ("friday", Json.str "r_002"), ("saturday", Json.str "r_002"),
   ("sunday", Json.str "r_002")]

/-- The parsed C6 witness plan. -/
def c6Pf : JObj := [("planId", Json.str "p1"), ("days", Json.obj c6Ds)]

/-- The raw C6 witness plan text. -/
def c6Text : String :=
  "\x7b\"planId\":\"p1\",\"days\":\x7b\"monday\":\"r_001\",\"tuesday\":\"r_002\",\"wednesday\":\"r_002\",\"thursday\":\"r_002\",\"friday\":\"r_002\",\"saturday\":\"r_002\",\"sunday\":\"r_002\"\x7d\x7d"

set_option maxRecDepth 8192 in
/-- C6, witness: the spec's scenario — Monday capped at 15 minutes,
assigned recipe cooking in 20 — validates successfully, returns the plan
unchanged, and reports exactly the Monday warning. -/
theorem c6_witness :
    validate_plan c6Text c6Recipes c6Prefs =
      .ok (.obj c6Pf, overBudgetWarnings c6Recipes c6Prefs c6Ds) ∧
    overBudgetWarnings c6Recipes c6Prefs c6Ds =
      [("monday", Json.num 20, Json.num 15)] :=
  ⟨c6_cooktime_warn_only c6Text c6Recipes c6Prefs c6Pf c6Ds
     (by decide) (by decide) (by decide) (by decide)
     (by
       intro r hr
       simp only [c6Recipes, List.mem_cons, List.not_mem_nil, or_false] at hr
       rcases hr with rfl | rfl
       · exact ⟨[("id", Json.str "r_001"), ("cookTimeMins", Json.num 20)],
           "r_001", rfl, by decide⟩
       · exact ⟨[("id", Json.str "r_002"), ("cookTimeMins", Json.num 10)],
           "r_002", rfl, by decide⟩)
     (by
       intro p hp
       simp only [c6Ds, List.mem_cons, List.not_mem_nil, or_false] at hp
       rcases hp with rfl | rfl | rfl | rfl | rfl | rfl | rfl
       · exact ⟨"r_001", [("id", Json.str "r_001"), ("cookTimeMins", Json.num 20)],
           20, 15, rfl, by decide, by decide, by norm_num, by decide, by norm_num⟩
       · exact ⟨"r_002", [("id", Json.str "r_002"), ("cookTimeMins", Json.num 10)],
           10, 30, rfl, by decide, by decide, by norm_num, by decide, by norm_num⟩
       · exact ⟨"r_002", [("id", Json.str "r_002"), ("cookTimeMins", Json.num 10)],
           10, 30, rfl, by decide, by decide, by norm_num, by decide, by norm_num⟩
       · exact ⟨"r_002", [("id", Json.str "r_002"), ("cookTimeMins", Json.num 10)],
           10, 30, rfl, by decide, by decide, by norm_num, by decide, by norm_num⟩
       · exact ⟨"r_002", [("id", Json.str "r_002"), ("cookTimeMins", Json.num 10)],
           10, 30, rfl, by decide, by decide, by norm_num, by decide, by norm_num⟩
       · exact ⟨"r_002", [("id", Json.str "r_002"), ("cookTimeMins", Json.num 10)],
           10, 30, rfl, by decide, by decide, by norm_num, by decide, by norm_num⟩
       · exact ⟨"r_002", [("id", Json.str "r_002"), ("cookTimeMins", Json.num 10)],
           10, 30, rfl, by decide, by decide, by norm_num, by decide, by norm_num⟩),
   by decide⟩
